import Mathlib

/-! AnimeExplorer (script.js): favorites store, result renderer, tabs

A shallow embedding of the class `AnimeExplorer` of `script.js`.

* Arrays are lists, strings are Lean strings, and identifiers (`mal_id`) are
  integers, as in the catalog; the strict equality `===` on identifiers is equality
  of integers.  An absent property (`null`, `undefined`) is `none`.
* The markup that `createAnimeCard`, `displayResults` and `displayFavorites` build
  is the string of the template literal, character by character.
* The page is the four result containers with the markup last assigned to them and
  the favorite buttons that markup created, and the tab elements with their
  `active` class.
* `localStorage` is a map from keys to strings.  `JSON.stringify` and `JSON.parse`
  are built-ins of the language; they are modelled after ECMA-262 on the values
  that the favorites store holds.
* `new Date(s).getFullYear()` is a parameter of the renderer.
* The fetches of `searchAnime`, `getRandomAnime`, `loadTrending` and
  `loadSeasonal` are not modelled; their results reach the page through
  `displayResults`.
-/

namespace AnimeExplorer

/-- An element of `this.favorites`: the object `{ mal_id: malId, title, imageUrl }`
that `toggleFavorite` pushes. -/
structure FavoriteEntry where
  mal_id : Int
  title : String
  imageUrl : String
deriving DecidableEq, Repr

/-- The method `Array.prototype.findIndex`: the index of the first element that
satisfies `p`, and `-1` when there is none. -/
def findIndex {α : Type} (p : α → Bool) : List α → Int
  | [] => -1
  | x :: xs =>
    if p x then 0
    else
      let i := findIndex p xs
      if i > -1 then i + 1 else -1

/-- The method `Array.prototype.some`. -/
def arraySome {α : Type} (p : α → Bool) : List α → Bool
  | [] => false
  | x :: xs => if p x then true else arraySome p xs

/-- The call `arr.splice(start, deleteCount)` for `0 ≤ start`: the array without
the `deleteCount` elements from index `start` on. -/
def splice {α : Type} (arr : List α) (start deleteCount : Nat) : List α :=
  arr.take start ++ arr.drop (start + deleteCount)

/-- The method `Array.prototype.push` with one argument. -/
def push {α : Type} (arr : List α) (x : α) : List α :=
  arr ++ [x]

/-- The membership test `this.favorites.some(fav => fav.mal_id === id)` of
`createAnimeCard` and `updateFavoriteButtons`. -/
def isFavorited (favorites : List FavoriteEntry) (id : Int) : Bool :=
  arraySome (fun fav => decide (fav.mal_id = id)) favorites

/-- The update of `this.favorites` in `toggleFavorite` (lines 155-161). -/
def toggleFavoriteList (favorites : List FavoriteEntry) (malId : Int)
    (title imageUrl : String) : List FavoriteEntry :=
  let existingIndex := findIndex (fun fav => decide (fav.mal_id = malId)) favorites
  if existingIndex > -1 then
    splice favorites existingIndex.toNat 1
  else
    push favorites { mal_id := malId, title := title, imageUrl := imageUrl }

/-- No two entries of the list share a `mal_id`. -/
def UniqueIds (favorites : List FavoriteEntry) : Prop :=
  (favorites.map FavoriteEntry.mal_id).Nodup

instance (favorites : List FavoriteEntry) : Decidable (UniqueIds favorites) := by
  unfold UniqueIds; infer_instance

/-- One call of `toggleFavorite`: its three arguments. -/
structure ToggleCall where
  malId : Int
  title : String
  imageUrl : String
deriving DecidableEq, Repr

/-- The favorites list after a sequence of `toggleFavorite` calls. -/
def runToggles (favorites : List FavoriteEntry) (calls : List ToggleCall) :
    List FavoriteEntry :=
  calls.foldl (fun favs c => toggleFavoriteList favs c.malId c.title c.imageUrl) favorites

/-! ## The result renderer -/

/-- The decimal digit `d` as a character. -/
def digitChar (d : Nat) : Char :=
  Char.ofNat (48 + d)

/-- The decimal digits of `n`, most significant first; `fuel` bounds the number of
digits and `n + 1` is always enough. -/
def natDigits : Nat → Nat → List Char
  | 0, _ => []
  | fuel + 1, n =>
    if n < 10 then [digitChar n] else natDigits fuel (n / 10) ++ [digitChar (n % 10)]

/-- The conversion of an integer to a string by a template literal or by
`JSON.stringify` (`Number::toString`; plain decimal digits, as JavaScript prints
every integer below `10^21`). -/
def intToChars (n : Int) : List Char :=
  if n < 0 then Char.ofNat 45 :: natDigits (n.natAbs + 1) n.natAbs
  else natDigits (n.natAbs + 1) n.natAbs

/-- The string of `intToChars`. -/
def intToString (n : Int) : String :=
  String.mk (intToChars n)

/-- A JavaScript number as far as the renderer looks at it: an integer, a finite
number that is not an integer (kept as the decimal text that `Number::toString`
gives it), or `NaN`. -/
inductive JSNum where
  | int (n : Int)
  | dec (text : String)
  | nan
deriving DecidableEq, Repr

/-- Truthiness of a number: `0` and `NaN` are falsy. -/
def JSNum.truthy : JSNum → Bool
  | .int n => decide (n ≠ 0)
  | .dec _ => true
  | .nan => false

/-- The string of a number in a template literal. -/
def JSNum.toStr : JSNum → String
  | .int n => intToString n
  | .dec text => text
  | .nan => "NaN"

/-- The value of the constants `score` and `year` of `createAnimeCard`: a number
or a string. -/
inductive JSVal where
  | num (x : JSNum)
  | str (s : String)
deriving DecidableEq, Repr

/-- The string of a value in a template literal. -/
def JSVal.toStr : JSVal → String
  | .num x => x.toStr
  | .str s => s

/-- An element of `anime.genres`. -/
structure Genre where
  name : String
deriving DecidableEq, Repr

/-- The object `anime.aired`; `from_` is its property `from` (a date string or
`null`). -/
structure Aired where
  from_ : Option String
deriving DecidableEq, Repr

/-- The object `anime.images.jpg`. -/
structure Jpg where
  large_image_url : String
deriving DecidableEq, Repr

/-- The object `anime.images`. -/
structure Images where
  jpg : Jpg
deriving DecidableEq, Repr

/-- An anime record of the catalog API, with the properties that `createAnimeCard`
reads.  `none` is an absent property (`null` or `undefined`). -/
structure AnimeRecord where
  mal_id : Int
  title : String
  title_english : Option String
  score : Option JSNum
  year : Option Int
  aired : Option Aired
  genres : Option (List Genre)
  type : Option String
  images : Images
deriving DecidableEq, Repr

/-- The fields of `this`, set by the constructor. -/
structure Explorer where
  currentTab : String
  favorites : List FavoriteEntry
  translateToEnglish : Bool
deriving DecidableEq, Repr

/-- The call `arr.slice(start, end)` for `0 ≤ start` and `0 ≤ end`. -/
def slice {α : Type} (arr : List α) (start end_ : Nat) : List α :=
  (arr.take end_).drop start

/-- The constant `genres` of `createAnimeCard` (line 125). -/
def cardGenres (anime : AnimeRecord) : List String :=
  match anime.genres with
  | some gs => (slice gs 0 3).map (fun g => g.name)
  | none => []

/-- The constant `year` of `createAnimeCard` (line 126); `getFullYear s` is
`new Date(s).getFullYear()`, with `none` for `NaN`. -/
def cardYear (getFullYear : String → Option Int) (anime : AnimeRecord) : JSVal :=
  let fallback : JSVal :=
    match anime.aired with
    | some aired =>
      match aired.from_ with
      | some s =>
        if s ≠ "" then
          match getFullYear s with
          | some y => .num (.int y)
          | none => .num .nan
        else .str "N/A"
      | none => .str "N/A"
    | none => .str "N/A"
  match anime.year with
  | some y => if y ≠ 0 then .num (.int y) else fallback
  | none => fallback

/-- The constant `score` of `createAnimeCard` (line 127). -/
def cardScore (anime : AnimeRecord) : JSVal :=
  match anime.score with
  | some x => if x.truthy then .num x else .str "N/A"
  | none => .str "N/A"

/-- The constant `title` of `createAnimeCard` (line 128). -/
def cardTitle (translateToEnglish : Bool) (anime : AnimeRecord) : String :=
  if translateToEnglish then
    match anime.title_english with
    | some english => if english ≠ "" then english else anime.title
    | none => anime.title
  else anime.title

/-- The call `arr.join('')` on an array of strings. -/
def join : List String → String
  | [] => ""
  | s :: ss => s ++ join ss

/-- The markup `piece` occurs in `markup`. -/
def Renders (markup piece : String) : Prop :=
  ∃ pre post, markup = pre ++ piece ++ post

/-- The tags `genres.map(genre => ...)` of line 140, before `join`. -/
def genreTags (anime : AnimeRecord) : List String :=
  (cardGenres anime).map (fun genre => "<span class=\"genre-tag\">" ++ genre ++ "</span>")

/-- The call `title.replace(/'/g, "\\'")`: a backslash before every apostrophe. -/
def escapeQuotes (title : String) : String :=
  String.mk (title.data.flatMap (fun c =>
    if c = Char.ofNat 39 then [Char.ofNat 92, Char.ofNat 39] else [c]))

/-- The expression `anime.type || 'Anime'` of line 143. -/
def cardType (anime : AnimeRecord) : String :=
  match anime.type with
  | some t => if t ≠ "" then t else "Anime"
  | none => "Anime"

/-- The `onclick` attribute of the favorite button (lines 145 and 200). -/
def onclickAttr (malId : Int) (title imageUrl : String) : String :=
  "animeExplorer.toggleFavorite(" ++ intToString malId ++ ", '" ++ escapeQuotes title ++
    "', '" ++ imageUrl ++ "')"

/-- The method `createAnimeCard` (lines 123-152): the markup of one card. -/
def createAnimeCard (self : Explorer) (getFullYear : String → Option Int)
    (anime : AnimeRecord) : String :=
  let isFavorited := isFavorited self.favorites anime.mal_id
  let year := cardYear getFullYear anime
  let score := cardScore anime
  let title := cardTitle self.translateToEnglish anime
  "\n            <div class=\"anime-card\" data-id=\"" ++ intToString anime.mal_id ++
  "\">\n                <img src=\"" ++ anime.images.jpg.large_image_url ++
  "\" alt=\"" ++ title ++
  "\" loading=\"lazy\">\n                <div class=\"card-content\">\n                    " ++
  "<div class=\"card-title\">" ++ title ++ "</div>" ++
  "\n                    <div class=\"card-info\">\n                        " ++
  "<span class=\"rating\">⭐ " ++ score.toStr ++ "</span>" ++
  "\n                        " ++
  "<span class=\"year\">" ++ year.toStr ++ "</span>" ++
  "\n                    </div>\n                    " ++
  "<div class=\"genres\">\n                        " ++ join (genreTags anime) ++
  "\n                    </div>" ++
  "\n                    <div class=\"card-actions\">\n                        <span class=\"type\">" ++ cardType anime ++
  "</span>\n                        <button class=\"favorite-btn " ++
  (if isFavorited then "favorited" else "") ++
  "\" \n                                onclick=\"" ++
  onclickAttr anime.mal_id title anime.images.jpg.large_image_url ++
  "\">\n                            " ++ (if isFavorited then "❤️" else "🤍") ++
  "\n                        </button>\n                    </div>\n                </div>\n            </div>\n        "

/-- The markup that `displayResults` writes for an empty list (lines 111-116). -/
def noResultsMarkup : String :=
  "\n                <div class=\"empty-state\">\n                    <h3>No results found</h3>\n                    <p>Try a different search term or check your filters.</p>\n                </div>\n            "

/-- The value that `displayResults` assigns to `container.innerHTML` (lines
110-120); `none` is an absent list (`undefined` or `null`). -/
def displayResultsMarkup (self : Explorer) (getFullYear : String → Option Int)
    (animeList : Option (List AnimeRecord)) : String :=
  match animeList with
  | none => noResultsMarkup
  | some list =>
    if list.length = 0 then noResultsMarkup
    else join (list.map (fun anime => createAnimeCard self getFullYear anime))

/-! ## JSON text: the built-ins `JSON.stringify` and `JSON.parse`

The two built-ins are modelled after ECMA-262 on the values of the favorites
store: arrays of objects whose properties are integers and strings.  Texts are
lists of characters; character codes are written as numbers. -/

/-- A value that `JSON.parse` returns.  Numbers are integers; an object is the list
of its properties in creation order. -/
inductive JSON where
  | null
  | bool (b : Bool)
  | num (n : Int)
  | str (s : String)
  | arr (elems : List JSON)
  | obj (members : List (String × JSON))

/-- The hexadecimal digit `d < 16`, in lower case as `JSON.stringify` writes it. -/
def hexDigit (d : Nat) : Char :=
  if d < 10 then Char.ofNat (48 + d) else Char.ofNat (87 + d)

/-- The text of one character inside a JSON string (`QuoteJSONString`): the two
character escapes for the quote, the backslash and the control characters
backspace, form feed, line feed, carriage return and tab, a `\u00XX` escape for
the other characters below the space, and the character itself otherwise. -/
def quoteChar (c : Char) : List Char :=
  if c.toNat = 34 then [Char.ofNat 92, Char.ofNat 34]
  else if c.toNat = 92 then [Char.ofNat 92, Char.ofNat 92]
  else if c.toNat = 8 then [Char.ofNat 92, Char.ofNat 98]
  else if c.toNat = 12 then [Char.ofNat 92, Char.ofNat 102]
  else if c.toNat = 10 then [Char.ofNat 92, Char.ofNat 110]
  else if c.toNat = 13 then [Char.ofNat 92, Char.ofNat 114]
  else if c.toNat = 9 then [Char.ofNat 92, Char.ofNat 116]
  else if c.toNat < 32 then
    [Char.ofNat 92, Char.ofNat 117, Char.ofNat 48, Char.ofNat 48,
      hexDigit (c.toNat / 16), hexDigit (c.toNat % 16)]
  else [c]

/-- The JSON text of a string: the quoted characters between two quotes. -/
def quoteJSONString (s : String) : List Char :=
  Char.ofNat 34 :: (s.data.flatMap quoteChar ++ [Char.ofNat 34])

/-- The JSON text of one entry, `{"mal_id":N,"title":"...","imageUrl":"..."}`
(`SerializeJSONObject`): for each property, in the order in which `toggleFavorite`
creates them, the quoted name, a colon and the text of the value; commas between
the properties, braces around them. -/
def stringifyEntry (e : FavoriteEntry) : List Char :=
  Char.ofNat 123 :: (quoteJSONString "mal_id" ++ Char.ofNat 58 :: (intToChars e.mal_id ++
    Char.ofNat 44 :: (quoteJSONString "title" ++ Char.ofNat 58 :: (quoteJSONString e.title ++
    Char.ofNat 44 :: (quoteJSONString "imageUrl" ++ Char.ofNat 58 ::
      (quoteJSONString e.imageUrl ++ [Char.ofNat 125]))))))

/-- The texts of the entries, separated by commas. -/
def stringifyEntries : List FavoriteEntry → List Char
  | [] => []
  | [e] => stringifyEntry e
  | e :: es => stringifyEntry e ++ Char.ofNat 44 :: stringifyEntries es

/-- The call `JSON.stringify(this.favorites)` of line 163 (`SerializeJSONArray`):
the texts of the elements, separated by commas, between brackets. -/
def stringify (favorites : List FavoriteEntry) : String :=
  String.mk (Char.ofNat 91 :: (stringifyEntries favorites ++ [Char.ofNat 93]))

/-- JSON white space: space, tab, line feed, carriage return. -/
def isWs (c : Char) : Bool :=
  c.toNat = 32 || c.toNat = 9 || c.toNat = 10 || c.toNat = 13

/-- The text without its leading white space. -/
def skipWs : List Char → List Char
  | [] => []
  | c :: r => if isWs c then skipWs r else c :: r

/-- A decimal digit. -/
def isDigit (c : Char) : Bool :=
  decide (48 ≤ c.toNat) && decide (c.toNat ≤ 57)

/-- The number that a list of decimal digits denotes. -/
def digitsValue (ds : List Char) : Nat :=
  ds.foldl (fun acc c => 10 * acc + (c.toNat - 48)) 0

/-- The value of a hexadecimal digit. -/
def hexVal (c : Char) : Option Nat :=
  if 48 ≤ c.toNat ∧ c.toNat ≤ 57 then some (c.toNat - 48)
  else if 97 ≤ c.toNat ∧ c.toNat ≤ 102 then some (c.toNat - 87)
  else if 65 ≤ c.toNat ∧ c.toNat ≤ 70 then some (c.toNat - 55)
  else none

/-- The code unit of the four hexadecimal digits of a `\u` escape. -/
def hex4 (a b c d : Char) : Option Nat :=
  match hexVal a, hexVal b, hexVal c, hexVal d with
  | some x, some y, some z, some w => some (((x * 16 + y) * 16 + z) * 16 + w)
  | _, _, _, _ => none

/-- The character of a two-character escape `\e`. -/
def simpleEscape (e : Char) : Option Char :=
  if e.toNat = 34 then some (Char.ofNat 34)
  else if e.toNat = 92 then some (Char.ofNat 92)
  else if e.toNat = 47 then some (Char.ofNat 47)
  else if e.toNat = 98 then some (Char.ofNat 8)
  else if e.toNat = 102 then some (Char.ofNat 12)
  else if e.toNat = 110 then some (Char.ofNat 10)
  else if e.toNat = 114 then some (Char.ofNat 13)
  else if e.toNat = 116 then some (Char.ofNat 9)
  else none

/-- The low half `\uXXXX` of a surrogate pair whose high half is `hi`, and the rest
of the text.  `none` when no low surrogate escape follows. -/
def lowSurrogate (hi : Nat) (cs : List Char) : Option (Char × List Char) :=
  match cs with
  | b :: u :: h1 :: h2 :: h3 :: h4 :: r =>
    if b.toNat = 92 ∧ u.toNat = 117 then
      match hex4 h1 h2 h3 h4 with
      | some lo =>
        if 56320 ≤ lo ∧ lo < 57344 then
          some (Char.ofNat (65536 + (hi - 55296) * 1024 + (lo - 56320)), r)
        else none
      | none => none
    else none
  | _ => none

/-- The characters of a JSON string from behind its opening quote up to its
closing quote, and the text after the closing quote.  `none` is a syntax error,
or an escaped surrogate that is not part of a pair (a string that a Lean string
cannot hold). -/
def parseStringBody : Nat → List Char → Option (List Char × List Char)
  | 0, _ => none
  | _ + 1, [] => none
  | fuel + 1, c :: r =>
    if c.toNat = 34 then some ([], r)
    else if c.toNat = 92 then
      match r with
      | [] => none
      | e :: r1 =>
        if e.toNat = 117 then
          match r1 with
          | h1 :: h2 :: h3 :: h4 :: r2 =>
            match hex4 h1 h2 h3 h4 with
            | some u =>
              if 55296 ≤ u ∧ u < 56320 then
                match lowSurrogate u r2 with
                | some (ch, r3) =>
                  match parseStringBody fuel r3 with
                  | some (s, rest) => some (ch :: s, rest)
                  | none => none
                | none => none
              else if 56320 ≤ u ∧ u < 57344 then none
              else
                match parseStringBody fuel r2 with
                | some (s, rest) => some (Char.ofNat u :: s, rest)
                | none => none
            | none => none
          | _ => none
        else
          match simpleEscape e with
          | some ch =>
            match parseStringBody fuel r1 with
            | some (s, rest) => some (ch :: s, rest)
            | none => none
          | none => none
    else if c.toNat < 32 then none
    else
      match parseStringBody fuel r with
      | some (s, rest) => some (c :: s, rest)
      | none => none

/-- A JSON number that is an integer literal: an optional minus sign and decimal
digits without a leading zero.  `none` is a syntax error, or a number with a
fraction or an exponent (outside the integers of this model). -/
def parseNumber (cs : List Char) : Option (Int × List Char) :=
  let negative : Bool := match cs with
    | c :: _ => decide (c.toNat = 45)
    | [] => false
  let body := if negative then cs.drop 1 else cs
  let ds := body.takeWhile isDigit
  let rest := body.dropWhile isDigit
  let fractional : Bool := match rest with
    | c :: _ => c.toNat = 46 || c.toNat = 101 || c.toNat = 69
    | [] => false
  let leadingZero : Bool := match ds with
    | c :: _ :: _ => decide (c.toNat = 48)
    | _ => false
  if ds.length = 0 || leadingZero || fractional then none
  else if negative then some (-(digitsValue ds : Int), rest)
  else some ((digitsValue ds : Int), rest)

/-- The text `cs` without the leading characters `lit`, when it starts with them. -/
def dropLit : List Char → List Char → Option (List Char)
  | [], cs => some cs
  | _ :: _, [] => none
  | l :: lit, c :: cs => if l = c then dropLit lit cs else none

/-- An object with one more property, parsed before the properties `ms`: a later
property of the same name keeps the earlier position and gives the value. -/
def addMember (key : String) (v : JSON) (ms : List (String × JSON)) :
    List (String × JSON) :=
  match ms.lookup key with
  | some later => (key, later) :: ms.filter (fun m => m.1 ≠ key)
  | none => (key, v) :: ms

mutual

/-- A JSON value at the head of the text (white space already skipped), and the
text after it.  `fuel` bounds the nesting depth and the number of elements. -/
def parseValue : Nat → List Char → Option (JSON × List Char)
  | 0, _ => none
  | _ + 1, [] => none
  | fuel + 1, c :: r =>
    if c.toNat = 34 then
      match parseStringBody (r.length + 1) r with
      | some (s, rest) => some (JSON.str (String.mk s), rest)
      | none => none
    else if c.toNat = 91 then
      match skipWs r with
      | [] => none
      | d :: r1 =>
        if d.toNat = 93 then some (JSON.arr [], r1)
        else
          match parseElements fuel (d :: r1) with
          | some (vs, rest) => some (JSON.arr vs, rest)
          | none => none
    else if c.toNat = 123 then
      match skipWs r with
      | [] => none
      | d :: r1 =>
        if d.toNat = 125 then some (JSON.obj [], r1)
        else
          match parseMembers fuel (d :: r1) with
          | some (ms, rest) => some (JSON.obj ms, rest)
          | none => none
    else if c.toNat = 110 then
      match dropLit "ull".data r with
      | some rest => some (JSON.null, rest)
      | none => none
    else if c.toNat = 116 then
      match dropLit "rue".data r with
      | some rest => some (JSON.bool true, rest)
      | none => none
    else if c.toNat = 102 then
      match dropLit "alse".data r with
      | some rest => some (JSON.bool false, rest)
      | none => none
    else
      match parseNumber (c :: r) with
      | some (n, rest) => some (JSON.num n, rest)
      | none => none

/-- The elements of an array from its first value up to the closing bracket. -/
def parseElements : Nat → List Char → Option (List JSON × List Char)
  | 0, _ => none
  | fuel + 1, cs =>
    match parseValue fuel cs with
    | none => none
    | some (v, r) =>
      match skipWs r with
      | [] => none
      | d :: r1 =>
        if d.toNat = 44 then
          match parseElements fuel (skipWs r1) with
          | some (vs, rest) => some (v :: vs, rest)
          | none => none
        else if d.toNat = 93 then some ([v], r1)
        else none

/-- The properties of an object from the quote of its first name up to the
closing brace. -/
def parseMembers : Nat → List Char → Option (List (String × JSON) × List Char)
  | 0, _ => none
  | _ + 1, [] => none
  | fuel + 1, q :: r =>
    if q.toNat = 34 then
      match parseStringBody (r.length + 1) r with
      | none => none
      | some (key, r1) =>
        match skipWs r1 with
        | [] => none
        | col :: r2 =>
          if col.toNat = 58 then
            match parseValue fuel (skipWs r2) with
            | none => none
            | some (v, r3) =>
              match skipWs r3 with
              | [] => none
              | d :: r4 =>
                if d.toNat = 44 then
                  match parseMembers fuel (skipWs r4) with
                  | some (ms, rest) => some (addMember (String.mk key) v ms, rest)
                  | none => none
                else if d.toNat = 125 then some ([(String.mk key, v)], r4)
                else none
          else none
    else none

end

/-- The built-in `JSON.parse` on a text: one value between optional white space.
`none` is a `SyntaxError` (or a text outside the model, see `parseNumber` and
`parseStringBody`). -/
def JSON.parse (text : String) : Option JSON :=
  match parseValue (text.length + 1) (skipWs text.data) with
  | some (v, rest) => if (skipWs rest).length = 0 then some v else none
  | none => none

/-- Truthiness of a parsed value: `null`, `false`, `0` and `""` are falsy. -/
def JSON.truthy : JSON → Bool
  | .null => false
  | .bool b => b
  | .num n => decide (n ≠ 0)
  | .str s => decide (s ≠ "")
  | .arr _ => true
  | .obj _ => true

/-- A parsed object as a favorites entry: the object with exactly the properties
`mal_id` (a number), `title` and `imageUrl` (strings), in this order. -/
def decodeEntry : JSON → Option FavoriteEntry
  | .obj [(k1, .num n), (k2, .str t), (k3, .str u)] =>
    if k1 = "mal_id" ∧ k2 = "title" ∧ k3 = "imageUrl" then
      some { mal_id := n, title := t, imageUrl := u }
    else none
  | _ => none

/-- The entries of a list of parsed values. -/
def decodeEntries : List JSON → Option (List FavoriteEntry)
  | [] => some []
  | v :: vs =>
    match decodeEntry v, decodeEntries vs with
    | some e, some es => some (e :: es)
    | _, _ => none

/-- The browser's `localStorage`: the string stored under a key, if any. -/
abbrev Storage := String → Option String

/-- The call `localStorage.setItem(key, value)`. -/
def Storage.setItem (st : Storage) (key value : String) : Storage :=
  fun k => if k = key then some value else st k

/-- The call `localStorage.getItem(key)`; `none` is `null`. -/
def Storage.getItem (st : Storage) (key : String) : Option String :=
  st key

/-- The initial value of `this.favorites` (line 4):
`JSON.parse(localStorage.getItem('animeFavorites')) || []`.  A missing key gives
`null`, which `JSON.parse` reads as the text `null`.  `none` when `JSON.parse`
throws, or when the stored value is not a list of entries. -/
def loadFavorites (st : Storage) : Option (List FavoriteEntry) :=
  let text := match st.getItem "animeFavorites" with
    | some s => s
    | none => "null"
  match JSON.parse text with
  | none => none
  | some v =>
    if v.truthy then
      match v with
      | .arr elems => decodeEntries elems
      | _ => none
    else some []

/-- The write of line 163:
`localStorage.setItem('animeFavorites', JSON.stringify(this.favorites))`. -/
def saveFavorites (st : Storage) (favorites : List FavoriteEntry) : Storage :=
  st.setItem "animeFavorites" (stringify favorites)

/-! ## The page: containers, favorite buttons, tabs -/

/-- A `.favorite-btn` element as the program reads and changes it: its `onclick`
attribute, whether its class list holds `favorited`, and its text content. -/
structure FavoriteBtn where
  onclick : String
  favorited : Bool
  textContent : String
deriving DecidableEq, Repr

/-- A result container: the markup last assigned to its `innerHTML`, and the
`.favorite-btn` elements that the markup created, in document order. -/
structure Container where
  markup : String
  buttons : List FavoriteBtn
deriving DecidableEq, Repr

/-- The elements of the page that the program touches: the four result containers
(by element id), the `.tab-btn` elements (their `data-tab` and whether they carry
the class `active`) and the `.tab-content` elements (their id and whether they
carry the class `active`). -/
structure Document where
  searchResults : Container
  trendingResults : Container
  seasonalResults : Container
  favoritesResults : Container
  tabBtns : List (String × Bool)
  tabContents : List (String × Bool)
deriving DecidableEq, Repr

/-- The state of the program: the fields of `this`, the storage and the page. -/
structure Browser where
  self : Explorer
  localStorage : Storage
  document : Document

/-- The call `document.getElementById(id)` for a result container; `none` is
`null`. -/
def Document.getElementById (doc : Document) (id : String) : Option Container :=
  if id = "searchResults" then some doc.searchResults
  else if id = "trendingResults" then some doc.trendingResults
  else if id = "seasonalResults" then some doc.seasonalResults
  else if id = "favoritesResults" then some doc.favoritesResults
  else none

/-- The page after an assignment to the `innerHTML` of the container `id`. -/
def Document.setContainer (doc : Document) (id : String) (c : Container) : Document :=
  if id = "searchResults" then { doc with searchResults := c }
  else if id = "trendingResults" then { doc with trendingResults := c }
  else if id = "seasonalResults" then { doc with seasonalResults := c }
  else if id = "favoritesResults" then { doc with favoritesResults := c }
  else doc

/-- The favorite button that the markup of `createAnimeCard` creates (lines
144-147). -/
def cardButton (self : Explorer) (anime : AnimeRecord) : FavoriteBtn :=
  let isFavorited := isFavorited self.favorites anime.mal_id
  let title := cardTitle self.translateToEnglish anime
  { onclick := onclickAttr anime.mal_id title anime.images.jpg.large_image_url
    favorited := isFavorited
    textContent := "\n                            " ++ (if isFavorited then "❤️" else "🤍") ++
      "\n                        " }

/-- The content of the target container after `displayResults`. -/
def resultsContainer (self : Explorer) (getFullYear : String → Option Int)
    (animeList : Option (List AnimeRecord)) : Container :=
  { markup := displayResultsMarkup self getFullYear animeList
    buttons := match animeList with
      | none => []
      | some list => list.map (fun anime => cardButton self anime) }

/-- The method `displayResults` (lines 107-121).  `none` is the `TypeError` of an
assignment to the `innerHTML` of `null`. -/
def displayResults (b : Browser) (getFullYear : String → Option Int)
    (animeList : Option (List AnimeRecord)) (containerId : String) : Option Browser :=
  match b.document.getElementById containerId with
  | none => none
  | some _ =>
    some { b with document :=
      b.document.setContainer containerId (resultsContainer b.self getFullYear animeList) }

/-- The markup that `displayFavorites` writes for an empty list (lines 183-188). -/
def noFavoritesMarkup : String :=
  "\n                <div class=\"empty-state\">\n                    <h3>No favorites yet</h3>\n                    <p>Add some anime to your favorites by clicking the heart icon!</p>\n                </div>\n            "

/-- The markup of one favorites card (lines 192-206). -/
def favoriteCardMarkup (anime : FavoriteEntry) : String :=
  "\n            <div class=\"anime-card\" data-id=\"" ++ intToString anime.mal_id ++
  "\">\n                <img src=\"" ++ anime.imageUrl ++
  "\" alt=\"" ++ anime.title ++
  "\" loading=\"lazy\">\n                <div class=\"card-content\">\n                    <div class=\"card-title\">" ++ anime.title ++
  "</div>\n                    <div class=\"card-actions\">\n                        <span class=\"type\">Favorite</span>\n                        <button class=\"favorite-btn favorited\" \n                                onclick=\"" ++
  onclickAttr anime.mal_id anime.title anime.imageUrl ++
  "\">\n                            ❤️\n                        </button>\n                    </div>\n                </div>\n            </div>\n        "

/-- The favorite button that the markup of a favorites card creates (lines
199-202). -/
def favoriteCardButton (anime : FavoriteEntry) : FavoriteBtn :=
  { onclick := onclickAttr anime.mal_id anime.title anime.imageUrl
    favorited := true
    textContent := "\n                            ❤️\n                        " }

/-- The rendering of a favorites list: the content that `displayFavorites` gives
the container `favoritesResults` (lines 182-206). -/
def favoritesContainer (favorites : List FavoriteEntry) : Container :=
  if favorites.length = 0 then { markup := noFavoritesMarkup, buttons := [] }
  else
    { markup := join (favorites.map favoriteCardMarkup)
      buttons := favorites.map favoriteCardButton }

/-- The method `displayFavorites` (lines 180-207). -/
def displayFavorites (b : Browser) : Browser :=
  { b with document :=
    { b.document with favoritesResults := favoritesContainer b.self.favorites } }

/-- The first match of `/\d+/` in a text: the first maximal run of decimal digits;
`none` when the text has no digit. -/
def matchDigits (cs : List Char) : Option (List Char) :=
  match cs.dropWhile (fun c => !isDigit c) with
  | [] => none
  | d :: r => some (d :: r.takeWhile isDigit)

/-- One round of the loop of `updateFavoriteButtons` (lines 173-176).  `none` is
the `TypeError` of `null[0]` when the `onclick` attribute has no digit. -/
def updateButton (favorites : List FavoriteEntry) (btn : FavoriteBtn) : Option FavoriteBtn :=
  match matchDigits btn.onclick.data with
  | none => none
  | some ds =>
    let malId : Int := (digitsValue ds : Int)
    let isFavorited := isFavorited favorites malId
    some { btn with
      textContent := if isFavorited then "❤️" else "🤍"
      favorited := isFavorited }

/-- The loop of `updateFavoriteButtons` over a list of buttons. -/
def updateButtons (favorites : List FavoriteEntry) :
    List FavoriteBtn → Option (List FavoriteBtn)
  | [] => some []
  | btn :: btns =>
    match updateButton favorites btn, updateButtons favorites btns with
    | some btn', some btns' => some (btn' :: btns')
    | _, _ => none

/-- The buttons of one container after `updateFavoriteButtons`. -/
def updateContainer (favorites : List FavoriteEntry) (c : Container) : Option Container :=
  match updateButtons favorites c.buttons with
  | some btns => some { c with buttons := btns }
  | none => none

/-- The method `updateFavoriteButtons` (lines 171-178), over the favorite buttons
of the four containers. -/
def updateFavoriteButtons (b : Browser) : Option Browser :=
  match updateContainer b.self.favorites b.document.searchResults,
        updateContainer b.self.favorites b.document.trendingResults,
        updateContainer b.self.favorites b.document.seasonalResults,
        updateContainer b.self.favorites b.document.favoritesResults with
  | some c1, some c2, some c3, some c4 =>
    some { b with document :=
      { b.document with
        searchResults := c1, trendingResults := c2,
        seasonalResults := c3, favoritesResults := c4 } }
  | _, _, _, _ => none

/-- The method `toggleFavorite` (lines 154-169).  `none` is an exception thrown by
`updateFavoriteButtons`. -/
def toggleFavorite (b : Browser) (malId : Int) (title imageUrl : String) : Option Browser :=
  let favorites := toggleFavoriteList b.self.favorites malId title imageUrl
  let b1 : Browser :=
    { b with
      self := { b.self with favorites := favorites }
      localStorage := saveFavorites b.localStorage favorites }
  match updateFavoriteButtons b1 with
  | none => none
  | some b2 =>
    if b2.self.currentTab = "favorites" then some (displayFavorites b2) else some b2

/-- The method `switchTab` (lines 209-220). -/
def switchTab (b : Browser) (tabName : String) : Browser :=
  { b with
    document :=
      { b.document with
        tabBtns := b.document.tabBtns.map (fun btn => (btn.1, decide (btn.1 = tabName)))
        tabContents := b.document.tabContents.map
          (fun content => (content.1, decide (content.1 = tabName ++ "-content"))) }
    self := { b.self with currentTab := tabName } }

/-- The method `init` (lines 9-14) up to the end of the constructor call:
`bindEvents` registers handlers, `loadTrending` and `loadSeasonal` start fetches
whose results arrive in later events, and `displayFavorites` renders. -/
def init (b : Browser) : Browser :=
  displayFavorites b

/-- The constructor (lines 2-7) on a storage and a page.  `none` when
`loadFavorites` has no value. -/
def construct (localStorage : Storage) (document : Document) : Option Browser :=
  match loadFavorites localStorage with
  | none => none
  | some favorites =>
    some (init
      { self := { currentTab := "search", favorites := favorites, translateToEnglish := false }
        localStorage := localStorage
        document := document })

/-- A call of the user interface: a click on a favorite button or on a tab. -/
inductive Action where
  | toggleFavorite (malId : Int) (title imageUrl : String)
  | switchTab (tabName : String)
deriving DecidableEq, Repr

/-- The state after one call. -/
def step (b : Browser) : Action → Option Browser
  | .toggleFavorite malId title imageUrl => toggleFavorite b malId title imageUrl
  | .switchTab tabName => some (switchTab b tabName)

/-- The state after a sequence of calls. -/
def run (b : Browser) : List Action → Option Browser
  | [] => some b
  | a :: as =>
    match step b a with
    | some b' => run b' as
    | none => none

/-- A page before the script runs: four empty containers, the four tabs with the
search tab active. -/
def blankDocument : Document :=
  { searchResults := { markup := "", buttons := [] }
    trendingResults := { markup := "", buttons := [] }
    seasonalResults := { markup := "", buttons := [] }
    favoritesResults := { markup := "", buttons := [] }
    tabBtns := [("search", true), ("trending", false), ("seasonal", false),
      ("favorites", false)]
    tabContents := [("search-content", true), ("trending-content", false),
      ("seasonal-content", false), ("favorites-content", false)] }

/-- An empty storage. -/
def emptyStorage : Storage :=
  fun _ => none

/-! ## Sample records -/

/-- A record with an English title, four genres, a score, no `year` and an
`aired.from` date. -/
def attackOnTitan : AnimeRecord :=
  { mal_id := 16498
    title := "Shingeki no Kyojin"
    title_english := some "Attack on Titan"
    score := some (.dec "8.54")
    year := none
    aired := some { from_ := some "2013-04-07T00:00:00+00:00" }
    genres := some [⟨"Action"⟩, ⟨"Award Winning"⟩, ⟨"Drama"⟩, ⟨"Suspense"⟩]
    type := some "TV"
    images := { jpg := { large_image_url := "https://cdn.myanimelist.net/images/anime/10/47347l.jpg" } } }

/-- A record with no English title, no score, no year, no `aired` and no genre
list. -/
def bareRecord : AnimeRecord :=
  { mal_id := 1
    title := "Cowboy Bebop"
    title_english := none
    score := none
    year := none
    aired := none
    genres := none
    type := none
    images := { jpg := { large_image_url := "https://cdn.myanimelist.net/images/anime/4/19644l.jpg" } } }

/-- The fields of `this` right after the constructor, with no favorites. -/
def freshExplorer : Explorer :=
  { currentTab := "search", favorites := [], translateToEnglish := false }

/-- The state right after the constructor on an empty storage and a blank page,
before `init`. -/
def freshBrowser : Browser :=
  { self := freshExplorer, localStorage := emptyStorage, document := blankDocument }

/-- The state after the constructor and a sequence of calls, from an empty storage
and a blank page. -/
def runFromStartup (actions : List Action) : Option Browser :=
  match construct emptyStorage blankDocument with
  | some b => run b actions
  | none => none

/-- What claim C9 looks at in a state: the current tab, the favorites list and the
content of the container `favoritesResults`. -/
def favoritesView (b : Browser) : String × List FavoriteEntry × Container :=
  (b.self.currentTab, b.self.favorites, b.document.favoritesResults)

/-- The value that `JSON.parse` returns for the text of one entry. -/
def entryJSON (e : FavoriteEntry) : JSON :=
  JSON.obj [("mal_id", JSON.num e.mal_id), ("title", JSON.str e.title),
    ("imageUrl", JSON.str e.imageUrl)]

/-! ## Helper lemmas on the array methods -/

theorem findIndex_ge_neg_one {α : Type} (p : α → Bool) (l : List α) :
    -1 ≤ findIndex p l := by
  induction l with
  | nil => simp [findIndex]
  | cons x xs ih =>
    simp only [findIndex]
    split
    · omega
    · split <;> omega

theorem findIndex_eq_neg_one_iff {α : Type} (p : α → Bool) (l : List α) :
    findIndex p l = -1 ↔ ∀ x ∈ l, p x = false := by
  induction l with
  | nil => simp [findIndex]
  | cons x xs ih =>
    have hge := findIndex_ge_neg_one p xs
    simp only [findIndex, List.mem_cons, forall_eq_or_imp]
    by_cases hp : p x = true
    · simp [hp]
    · simp only [hp, Bool.false_eq_true, if_false]
      have hp' : p x = false := by simpa using hp
      by_cases hi : findIndex p xs > -1
      · simp only [hi, if_true]
        constructor
        · intro h; omega
        · intro h
          have := ih.mpr h.2
          omega
      · simp only [hi, if_false, true_iff]
        exact ⟨by simp [hp'], ih.mp (by omega)⟩

/-- When some element satisfies `p`, `findIndex` is the length of a prefix whose
elements all fail `p` and which is followed by an element that satisfies `p`. -/
theorem findIndex_split {α : Type} (p : α → Bool) (l : List α)
    (h : findIndex p l > -1) :
    ∃ pre x post, l = pre ++ x :: post ∧ (∀ y ∈ pre, p y = false) ∧ p x = true ∧
      findIndex p l = (pre.length : Int) := by
  induction l with
  | nil => simp [findIndex] at h
  | cons a as ih =>
    by_cases hp : p a = true
    · exact ⟨[], a, as, rfl, by simp, hp, by simp [findIndex, hp]⟩
    · have hp' : p a = false := by simpa using hp
      simp only [findIndex, hp, Bool.false_eq_true, if_false] at h ⊢
      by_cases hi : findIndex p as > -1
      · obtain ⟨pre, x, post, hl, hpre, hx, hidx⟩ := ih hi
        refine ⟨a :: pre, x, post, by simp [hl], ?_, hx, ?_⟩
        · intro y hy
          rcases List.mem_cons.mp hy with rfl | hy
          · exact hp'
          · exact hpre y hy
        · simp only [hi, if_true, List.length_cons]
          rw [hidx]; push_cast; ring
      · simp [hi] at h

theorem arraySome_eq_true_iff {α : Type} (p : α → Bool) (l : List α) :
    arraySome p l = true ↔ ∃ x ∈ l, p x = true := by
  induction l with
  | nil => simp [arraySome]
  | cons x xs ih =>
    simp only [arraySome, List.mem_cons, exists_eq_or_imp]
    by_cases hp : p x = true
    · simp [hp]
    · simp [hp, ih]

theorem isFavorited_iff (favorites : List FavoriteEntry) (id : Int) :
    isFavorited favorites id = true ↔ ∃ fav ∈ favorites, fav.mal_id = id := by
  simp [isFavorited, arraySome_eq_true_iff]

theorem isFavorited_iff_mem_map (favorites : List FavoriteEntry) (id : Int) :
    isFavorited favorites id = true ↔ id ∈ favorites.map FavoriteEntry.mal_id := by
  rw [isFavorited_iff]; simp

theorem splice_one_append {α : Type} (pre post : List α) (x : α) :
    splice (pre ++ x :: post) pre.length 1 = pre ++ post := by
  simp [splice, List.take_append_eq_append_take, List.drop_append_eq_append_drop]

/-- The two branches of `toggleFavoriteList`, by cases on the membership test. -/
theorem toggle_cases (favorites : List FavoriteEntry) (malId : Int)
    (title imageUrl : String) :
    (isFavorited favorites malId = true ∧
      ∃ pre e post, favorites = pre ++ e :: post ∧ e.mal_id = malId ∧
        (∀ y ∈ pre, y.mal_id ≠ malId) ∧
        toggleFavoriteList favorites malId title imageUrl = pre ++ post) ∨
    (isFavorited favorites malId = false ∧
      toggleFavoriteList favorites malId title imageUrl =
        favorites ++ [{ mal_id := malId, title := title, imageUrl := imageUrl }]) := by
  by_cases h : findIndex (fun fav : FavoriteEntry => decide (fav.mal_id = malId)) favorites > -1
  · left
    obtain ⟨pre, x, post, hl, hpre, hx, hidx⟩ := findIndex_split _ _ h
    have hx' : x.mal_id = malId := by simpa using hx
    refine ⟨?_, pre, x, post, hl, hx', ?_, ?_⟩
    · rw [isFavorited_iff]
      exact ⟨x, by simp [hl], hx'⟩
    · intro y hy
      simpa using hpre y hy
    · have hpos : (pre.length : Int) > -1 := by omega
      simp only [toggleFavoriteList, hidx, hpos, if_true, Int.toNat_ofNat]
      rw [hl, splice_one_append]
  · right
    have hneg : findIndex (fun fav : FavoriteEntry => decide (fav.mal_id = malId)) favorites = -1 := by
      have := findIndex_ge_neg_one (fun fav : FavoriteEntry => decide (fav.mal_id = malId)) favorites
      omega
    refine ⟨?_, ?_⟩
    · rw [findIndex_eq_neg_one_iff] at hneg
      cases hfav : isFavorited favorites malId with
      | false => rfl
      | true =>
        obtain ⟨fav, hm, hid⟩ := (isFavorited_iff _ _).mp hfav
        have := hneg fav hm
        simp [hid] at this
    · simp [toggleFavoriteList, h, push]

theorem findIndex_append_last {α : Type} (p : α → Bool) (l : List α) (a : α)
    (hl : ∀ x ∈ l, p x = false) (ha : p a = true) :
    findIndex p (l ++ [a]) = (l.length : Int) := by
  induction l with
  | nil => simp [findIndex, ha]
  | cons x xs ih =>
    have hx : p x = false := hl x (by simp)
    have ih' := ih (fun y hy => hl y (by simp [hy]))
    have hpos : (xs.length : Int) > -1 := by omega
    rw [List.cons_append]
    simp only [findIndex, hx, Bool.false_eq_true, if_false, ih', hpos,
      if_true, List.length_cons]
    push_cast; ring

/-- Toggling an identifier that was just appended removes the appended entry. -/
theorem toggle_after_push (favorites : List FavoriteEntry) (malId : Int)
    (e : FavoriteEntry) (title imageUrl : String)
    (habs : isFavorited favorites malId = false) (he : e.mal_id = malId) :
    toggleFavoriteList (favorites ++ [e]) malId title imageUrl = favorites := by
  have hall : ∀ x ∈ favorites, decide (x.mal_id = malId) = false := by
    intro x hx
    cases hd : decide (x.mal_id = malId) with
    | false => rfl
    | true =>
      have : isFavorited favorites malId = true :=
        (isFavorited_iff _ _).mpr ⟨x, hx, by simpa using hd⟩
      rw [habs] at this; cases this
  have hidx := findIndex_append_last (fun fav : FavoriteEntry => decide (fav.mal_id = malId))
    favorites e hall (by simp [he])
  have hpos : (favorites.length : Int) > -1 := by omega
  simp only [toggleFavoriteList, hidx, hpos, if_true, Int.toNat_ofNat]
  have := splice_one_append favorites [] e
  simpa using this

theorem isFavorited_append (l₁ l₂ : List FavoriteEntry) (id : Int) :
    isFavorited (l₁ ++ l₂) id = (isFavorited l₁ id || isFavorited l₂ id) := by
  rw [Bool.eq_iff_iff]
  simp only [Bool.or_eq_true, isFavorited_iff, List.mem_append]
  constructor
  · rintro ⟨f, hf | hf, h⟩
    · exact Or.inl ⟨f, hf, h⟩
    · exact Or.inr ⟨f, hf, h⟩
  · rintro (⟨f, hf, h⟩ | ⟨f, hf, h⟩)
    · exact ⟨f, Or.inl hf, h⟩
    · exact ⟨f, Or.inr hf, h⟩

theorem uniqueIds_toggle (favorites : List FavoriteEntry) (malId : Int)
    (title imageUrl : String) (h : UniqueIds favorites) :
    UniqueIds (toggleFavoriteList favorites malId title imageUrl) := by
  rcases toggle_cases favorites malId title imageUrl with
    ⟨_, pre, e, post, hl, _, _, hres⟩ | ⟨habs, hres⟩
  · rw [hres]
    unfold UniqueIds at h ⊢
    rw [hl] at h
    simp only [List.map_append, List.map_cons] at h ⊢
    exact (List.nodup_cons.mp (List.nodup_middle.mp h)).2
  · rw [hres]
    unfold UniqueIds at h ⊢
    have hnot : malId ∉ favorites.map FavoriteEntry.mal_id := by
      intro hm
      have := (isFavorited_iff_mem_map _ _).mpr hm
      rw [habs] at this; cases this
    simp only [List.map_append, List.map_cons, List.map_nil]
    rw [List.nodup_append]
    refine ⟨h, by simp, ?_⟩
    intro a ha hb
    simp only [List.mem_singleton] at hb
    exact hnot (hb ▸ ha)

theorem uniqueIds_runToggles (calls : List ToggleCall) :
    ∀ favorites : List FavoriteEntry, UniqueIds favorites →
      UniqueIds (runToggles favorites calls) := by
  induction calls with
  | nil => intro favorites h; simpa [runToggles] using h
  | cons c cs ih =>
    intro favorites h
    have := ih _ (uniqueIds_toggle favorites c.malId c.title c.imageUrl h)
    simpa [runToggles] using this

/-! ## The favorites store: claims C1 to C4 -/

/-- C1: on a favorites list with at most one entry per identifier, two calls of
`toggleFavorite` with the same identifier (and any titles and image URLs) leave
membership unchanged: every identifier has an entry afterwards if and only if it
had one before. -/
theorem toggleFavorite_twice_membership (favorites : List FavoriteEntry)
    (id : Int) (title₁ imageUrl₁ title₂ imageUrl₂ : String) (id' : Int)
    (huniq : UniqueIds favorites) :
    isFavorited (toggleFavoriteList (toggleFavoriteList favorites id title₁ imageUrl₁)
        id title₂ imageUrl₂) id' = true ↔
      isFavorited favorites id' = true := by
  rcases toggle_cases favorites id title₁ imageUrl₁ with
    ⟨_, pre, e, post, hl, he, hpre, hres⟩ | ⟨habs, hres⟩
  · -- the entry is removed by the first call and a new one is appended by the second
    have hnodup : (pre.map FavoriteEntry.mal_id ++
        e.mal_id :: post.map FavoriteEntry.mal_id).Nodup := by
      have := huniq
      unfold UniqueIds at this
      rw [hl] at this
      simpa using this
    have hnotmem : e.mal_id ∉ pre.map FavoriteEntry.mal_id ++ post.map FavoriteEntry.mal_id :=
      (List.nodup_cons.mp (List.nodup_middle.mp hnodup)).1
    have habs1 : isFavorited (pre ++ post) id = false := by
      cases hc : isFavorited (pre ++ post) id with
      | false => rfl
      | true =>
        have := (isFavorited_iff_mem_map _ _).mp hc
        rw [← he] at this
        exact absurd (by simpa using this) hnotmem
    rw [hres]
    rcases toggle_cases (pre ++ post) id title₂ imageUrl₂ with ⟨hp, _⟩ | ⟨_, hres2⟩
    · rw [habs1] at hp; cases hp
    · rw [hres2, hl]
      simp only [isFavorited_iff, List.mem_append, List.mem_cons, List.mem_singleton,
        List.not_mem_nil, or_false]
      constructor
      · rintro ⟨f, (hf | hf) | hf, h⟩
        · exact ⟨f, Or.inl hf, h⟩
        · exact ⟨f, Or.inr (Or.inr hf), h⟩
        · subst hf
          exact ⟨e, Or.inr (Or.inl rfl), by rw [he]; exact h⟩
      · rintro ⟨f, hf | hf | hf, h⟩
        · exact ⟨f, Or.inl (Or.inl hf), h⟩
        · subst hf
          exact ⟨_, Or.inr rfl, by simpa [he] using h⟩
        · exact ⟨f, Or.inl (Or.inr hf), h⟩
  · -- a new entry is appended by the first call and removed by the second
    rw [hres, toggle_after_push favorites id _ title₂ imageUrl₂ habs rfl]

/-- Witness of C1 on a two-entry list, toggling an identifier that is present. -/
theorem toggleFavorite_twice_membership_witness :
    UniqueIds [⟨1, "Naruto", "n.jpg"⟩, ⟨2, "Bleach", "b.jpg"⟩] ∧
    (isFavorited (toggleFavoriteList (toggleFavoriteList
        [⟨1, "Naruto", "n.jpg"⟩, ⟨2, "Bleach", "b.jpg"⟩] 1 "x" "y") 1 "z" "w") 1 = true ↔
      isFavorited [⟨1, "Naruto", "n.jpg"⟩, ⟨2, "Bleach", "b.jpg"⟩] 1 = true) :=
  ⟨by decide, toggleFavorite_twice_membership _ 1 "x" "y" "z" "w" 1 (by decide)⟩

/-- C2, as stated, fails on a list that holds two entries with the same identifier
(a list that `JSON.parse` can deliver at startup): identifier 1 has an entry
before `toggleFavorite(1, ...)`, and the membership test is still true after it,
because `splice(existingIndex, 1)` removes the first match only. -/
theorem toggleFavorite_duplicate_still_member :
    isFavorited [⟨1, "Naruto", "n.jpg"⟩, ⟨1, "Naruto", "n.jpg"⟩] 1 = true ∧
    isFavorited (toggleFavoriteList
      [⟨1, "Naruto", "n.jpg"⟩, ⟨1, "Naruto", "n.jpg"⟩] 1 "Naruto" "n.jpg") 1 = true := by
  decide

/-- C2, amended: for every favorites list, if no entry has identifier `id` before
`toggleFavorite(id, title, imageUrl)` the membership test is true after the call;
if some entry has identifier `id` before the call and the list holds at most one
entry with that identifier, the membership test is false after the call. -/
theorem toggleFavorite_membership (favorites : List FavoriteEntry) (id : Int)
    (title imageUrl : String) :
    (isFavorited favorites id = false →
      isFavorited (toggleFavoriteList favorites id title imageUrl) id = true) ∧
    (isFavorited favorites id = true →
      (favorites.map FavoriteEntry.mal_id).count id ≤ 1 →
      isFavorited (toggleFavoriteList favorites id title imageUrl) id = false) := by
  rcases toggle_cases favorites id title imageUrl with
    ⟨hpres, pre, e, post, hl, he, hpre, hres⟩ | ⟨habs, hres⟩
  · refine ⟨fun h => (by rw [hpres] at h; cases h), fun _ hcount => ?_⟩
    rw [hres]
    cases hc : isFavorited (pre ++ post) id with
    | false => rfl
    | true =>
      exfalso
      obtain ⟨f, hf, hfid⟩ := (isFavorited_iff _ _).mp hc
      rcases List.mem_append.mp hf with hf | hf
      · exact hpre f hf hfid
      · have hmem : id ∈ post.map FavoriteEntry.mal_id :=
          List.mem_map.mpr ⟨f, hf, hfid⟩
        have hpos : 0 < (post.map FavoriteEntry.mal_id).count id :=
          List.count_pos_iff.mpr hmem
        rw [hl] at hcount
        simp only [List.map_append, List.map_cons, List.count_append, List.count_cons, he,
          beq_self_eq_true, if_true] at hcount
        omega
  · refine ⟨fun _ => ?_, fun h => (by rw [habs] at h; cases h)⟩
    rw [hres, isFavorited_append]
    simp [isFavorited, arraySome]

/-- Witness of C2 (amended): identifier 2 is absent from, and identifier 1 is
present once in, a two-entry list. -/
theorem toggleFavorite_membership_witness :
    (isFavorited [⟨1, "Naruto", "n.jpg"⟩, ⟨3, "Bleach", "b.jpg"⟩] 2 = false ∧
      isFavorited (toggleFavoriteList
        [⟨1, "Naruto", "n.jpg"⟩, ⟨3, "Bleach", "b.jpg"⟩] 2 "Monster" "m.jpg") 2 = true) ∧
    (isFavorited [⟨1, "Naruto", "n.jpg"⟩, ⟨3, "Bleach", "b.jpg"⟩] 1 = true ∧
      isFavorited (toggleFavoriteList
        [⟨1, "Naruto", "n.jpg"⟩, ⟨3, "Bleach", "b.jpg"⟩] 1 "Naruto" "n.jpg") 1 = false) :=
  ⟨⟨by decide, (toggleFavorite_membership _ 2 "Monster" "m.jpg").1 (by decide)⟩,
   ⟨by decide, (toggleFavorite_membership _ 1 "Naruto" "n.jpg").2 (by decide) (by decide)⟩⟩

/-- C3: `toggleFavorite` preserves the predicate that no two entries share a
`mal_id`, for every identifier, title and image URL, and so the predicate holds
in every state reached from the empty favorites list by a sequence of
`toggleFavorite` calls. -/
theorem toggleFavorite_unique_ids (favorites : List FavoriteEntry) (id : Int)
    (title imageUrl : String) (calls : List ToggleCall) :
    (UniqueIds favorites → UniqueIds (toggleFavoriteList favorites id title imageUrl)) ∧
    UniqueIds (runToggles [] calls) :=
  ⟨uniqueIds_toggle favorites id title imageUrl,
   uniqueIds_runToggles calls [] (by simp [UniqueIds])⟩

/-- Witness of C3: a list with two identifiers, and a run of four calls from the
empty list. -/
theorem toggleFavorite_unique_ids_witness :
    UniqueIds [⟨1, "Naruto", "n.jpg"⟩, ⟨3, "Bleach", "b.jpg"⟩] ∧
    UniqueIds (toggleFavoriteList
      [⟨1, "Naruto", "n.jpg"⟩, ⟨3, "Bleach", "b.jpg"⟩] 2 "Monster" "m.jpg") ∧
    UniqueIds (runToggles []
      [⟨1, "a", "u"⟩, ⟨2, "b", "v"⟩, ⟨1, "c", "w"⟩, ⟨2, "d", "x"⟩]) :=
  ⟨by decide,
   (toggleFavorite_unique_ids [⟨1, "Naruto", "n.jpg"⟩, ⟨3, "Bleach", "b.jpg"⟩] 2
      "Monster" "m.jpg" []).1 (by decide),
   (toggleFavorite_unique_ids [] 0 "" ""
      [⟨1, "a", "u"⟩, ⟨2, "b", "v"⟩, ⟨1, "c", "w"⟩, ⟨2, "d", "x"⟩]).2⟩

/-- C4: if the list has an entry with identifier `id`, `toggleFavorite` returns the
list with exactly one entry removed, the first one with identifier `id`, all other
entries unchanged and in their order; otherwise it returns the list followed by
the single new entry `{mal_id: id, title, imageUrl}`. -/
theorem toggleFavorite_frame (favorites : List FavoriteEntry) (id : Int)
    (title imageUrl : String) :
    ((∃ fav ∈ favorites, fav.mal_id = id) →
      ∃ pre e post, favorites = pre ++ e :: post ∧ e.mal_id = id ∧
        (∀ y ∈ pre, y.mal_id ≠ id) ∧
        toggleFavoriteList favorites id title imageUrl = pre ++ post) ∧
    ((¬ ∃ fav ∈ favorites, fav.mal_id = id) →
      toggleFavoriteList favorites id title imageUrl =
        favorites ++ [{ mal_id := id, title := title, imageUrl := imageUrl }]) := by
  rcases toggle_cases favorites id title imageUrl with ⟨hpres, hex⟩ | ⟨habs, hres⟩
  · exact ⟨fun _ => hex, fun h => absurd ((isFavorited_iff _ _).mp hpres) h⟩
  · refine ⟨fun h => ?_, fun _ => hres⟩
    have := (isFavorited_iff _ _).mpr h
    rw [habs] at this; cases this

/-- Witness of C4: removal of the middle entry of a three-entry list, and the
append of an entry with a new identifier. -/
theorem toggleFavorite_frame_witness :
    (∃ pre e post,
      ([⟨1, "a", "u"⟩, ⟨2, "b", "v"⟩, ⟨3, "c", "w"⟩] : List FavoriteEntry) =
        pre ++ e :: post ∧ e.mal_id = 2 ∧ (∀ y ∈ pre, y.mal_id ≠ 2) ∧
      toggleFavoriteList [⟨1, "a", "u"⟩, ⟨2, "b", "v"⟩, ⟨3, "c", "w"⟩] 2 "t" "i" =
        pre ++ post) ∧
    toggleFavoriteList [⟨1, "a", "u"⟩, ⟨2, "b", "v"⟩, ⟨3, "c", "w"⟩] 4 "t" "i" =
      [⟨1, "a", "u"⟩, ⟨2, "b", "v"⟩, ⟨3, "c", "w"⟩] ++ [⟨4, "t", "i"⟩] :=
  ⟨(toggleFavorite_frame [⟨1, "a", "u"⟩, ⟨2, "b", "v"⟩, ⟨3, "c", "w"⟩] 2 "t" "i").1
      ⟨⟨2, "b", "v"⟩, by simp, rfl⟩,
   (toggleFavorite_frame [⟨1, "a", "u"⟩, ⟨2, "b", "v"⟩, ⟨3, "c", "w"⟩] 4 "t" "i").2
      (by simp)⟩

/-! ## Helper lemmas on digits and strings -/

theorem digitChar_toNat (d : Nat) (h : d < 10) : (digitChar d).toNat = 48 + d := by
  interval_cases d <;> rfl

theorem isDigit_digitChar (d : Nat) (h : d < 10) : isDigit (digitChar d) = true := by
  interval_cases d <;> rfl

theorem natDigits_isDigit (fuel : Nat) :
    ∀ n c, c ∈ natDigits fuel n → isDigit c = true := by
  induction fuel with
  | zero => intro n c hc; simp [natDigits] at hc
  | succ fuel ih =>
    intro n c hc
    simp only [natDigits] at hc
    split at hc
    · simp only [List.mem_singleton] at hc
      subst hc
      exact isDigit_digitChar n (by assumption)
    · rcases List.mem_append.mp hc with hc | hc
      · exact ih _ _ hc
      · simp only [List.mem_singleton] at hc
        subst hc
        exact isDigit_digitChar _ (Nat.mod_lt _ (by decide))

/-- The text of an integer holds no letter `N`. -/
theorem intToChars_no_N (n : Int) : Char.ofNat 78 ∉ intToChars n := by
  have hdig : ∀ fuel m, Char.ofNat 78 ∉ natDigits fuel m := by
    intro fuel m hmem
    have := natDigits_isDigit fuel m _ hmem
    revert this; decide
  unfold intToChars
  split
  · intro hmem
    rcases List.mem_cons.mp hmem with h | h
    · revert h; decide
    · exact hdig _ _ h
  · exact hdig _ _

theorem intToString_ne_na (n : Int) : intToString n ≠ "N/A" := by
  intro h
  have hdata : intToChars n = "N/A".data := by
    have := congrArg String.data h
    simpa [intToString] using this
  have hmem : Char.ofNat 78 ∈ intToChars n := by
    rw [hdata]; decide
  exact intToChars_no_N n hmem

theorem renders_append_right (markup piece x : String) (h : Renders markup piece) :
    Renders (markup ++ x) piece := by
  obtain ⟨pre, post, rfl⟩ := h
  exact ⟨pre, post ++ x, by simp only [String.append_assoc]⟩

theorem renders_three (pre a t b : String) : Renders (pre ++ a ++ t ++ b) (a ++ t ++ b) :=
  ⟨pre, "", by simp [String.append_assoc]⟩

/-! ## The result renderer: claims C5, C6, C7 and C10 -/

/-- C5: the title that `createAnimeCard` renders is the English title if the
translation preference is on and the record has an English title (a non-empty
string), and the primary title otherwise; a record with no English title renders
its primary title under both preferences; the record with English title "Attack
on Titan" and primary title "Shingeki no Kyojin" renders "Attack on Titan" with
the preference on and "Shingeki no Kyojin" with it off. -/
theorem createAnimeCard_title (self : Explorer) (getFullYear : String → Option Int)
    (anime : AnimeRecord) :
    Renders (createAnimeCard self getFullYear anime)
      ("<div class=\"card-title\">" ++ cardTitle self.translateToEnglish anime ++ "</div>") ∧
    (∀ english, anime.title_english = some english → english ≠ "" →
      cardTitle true anime = english) ∧
    cardTitle false anime = anime.title ∧
    (anime.title_english = none ∨ anime.title_english = some "" →
      ∀ translate, cardTitle translate anime = anime.title) ∧
    (anime.title_english = some "Attack on Titan" → anime.title = "Shingeki no Kyojin" →
      cardTitle true anime = "Attack on Titan" ∧
      cardTitle false anime = "Shingeki no Kyojin") := by
  refine ⟨?_, ?_, ?_, ?_, ?_⟩
  · dsimp only [createAnimeCard]
    repeat (first | exact renders_three _ _ _ _ | apply renders_append_right)
  · intro english he hne
    simp [cardTitle, he, hne]
  · simp [cardTitle]
  · rintro (h | h) translate <;> cases translate <;> simp [cardTitle, h]
  · intro he ht
    refine ⟨?_, ?_⟩
    · have : ("Attack on Titan" : String) ≠ "" := by decide
      simp [cardTitle, he]
    · simp [cardTitle, ht]

/-- Witness of C5 on the record of "Attack on Titan". -/
theorem createAnimeCard_title_witness :
    cardTitle true attackOnTitan = "Attack on Titan" ∧
    cardTitle false attackOnTitan = "Shingeki no Kyojin" ∧
    (∀ translate, cardTitle translate bareRecord = "Cowboy Bebop") :=
  ⟨((createAnimeCard_title freshExplorer (fun _ => none) attackOnTitan).2.2.2.2 rfl rfl).1,
   ((createAnimeCard_title freshExplorer (fun _ => none) attackOnTitan).2.2.2.2 rfl rfl).2,
   (createAnimeCard_title freshExplorer (fun _ => none) bareRecord).2.2.2.1 (Or.inl rfl)⟩

/-- C6: for a record with a genre list of length `n`, `createAnimeCard` renders
`min n 3` genre tags, the tags of the names of the first `min n 3` genres in their
order; a list longer than 3 entries renders exactly 3 tags; a record with no genre
list renders none. -/
theorem createAnimeCard_genres (self : Explorer) (getFullYear : String → Option Int)
    (anime : AnimeRecord) :
    Renders (createAnimeCard self getFullYear anime)
      ("<div class=\"genres\">\n                        " ++ join (genreTags anime) ++
        "\n                    </div>") ∧
    (∀ gs, anime.genres = some gs →
      genreTags anime = (gs.take (min gs.length 3)).map
        (fun g => "<span class=\"genre-tag\">" ++ g.name ++ "</span>") ∧
      (genreTags anime).length = min gs.length 3 ∧
      (3 < gs.length → (genreTags anime).length = 3)) ∧
    (anime.genres = none → genreTags anime = []) := by
  refine ⟨?_, ?_, ?_⟩
  · dsimp only [createAnimeCard]
    repeat (first | exact renders_three _ _ _ _ | apply renders_append_right)
  · intro gs hgs
    have htake : gs.take (min gs.length 3) = gs.take 3 := by
      rcases Nat.le_total gs.length 3 with h | h
      · rw [Nat.min_eq_left h, List.take_of_length_le h, List.take_of_length_le (le_refl _)]
      · rw [Nat.min_eq_right h]
    have hlen : (genreTags anime).length = min gs.length 3 := by
      simp [genreTags, cardGenres, hgs, slice, Nat.min_comm]
    refine ⟨?_, hlen, ?_⟩
    · rw [htake]
      simp only [genreTags, cardGenres, hgs, slice, List.drop_zero, List.map_map]
      rfl
    · intro h
      rw [hlen]
      omega
  · intro h
    simp [genreTags, cardGenres, h]

/-- Witness of C6: the four genres of "Attack on Titan" render as three tags, and
a record with no genre list renders none. -/
theorem createAnimeCard_genres_witness :
    genreTags attackOnTitan =
      ["<span class=\"genre-tag\">Action</span>",
       "<span class=\"genre-tag\">Award Winning</span>",
       "<span class=\"genre-tag\">Drama</span>"] ∧
    (genreTags attackOnTitan).length = 3 ∧
    genreTags bareRecord = [] :=
  ⟨by
    have h := ((createAnimeCard_genres freshExplorer (fun _ => none) attackOnTitan).2.1
      _ rfl).1
    rw [h]; decide,
   ((createAnimeCard_genres freshExplorer (fun _ => none) attackOnTitan).2.1 _ rfl).2.2
      (by decide),
   (createAnimeCard_genres freshExplorer (fun _ => none) bareRecord).2.2 rfl⟩

/-- C7, as stated, fails for the year: the record of "Attack on Titan" has no
`year` but an `aired.from` date, and whatever `new Date(...).getFullYear()`
returns for it (a number or `NaN`), the year that `createAnimeCard` renders is not
the placeholder 'N/A'. -/
theorem createAnimeCard_year_from_aired :
    attackOnTitan.year = none ∧
    ∀ getFullYear : String → Option Int,
      (cardYear getFullYear attackOnTitan).toStr ≠ "N/A" := by
  refine ⟨rfl, fun getFullYear => ?_⟩
  have hs : ("2013-04-07T00:00:00+00:00" : String) ≠ "" := by decide
  simp only [cardYear, attackOnTitan, hs, ne_eq, not_false_eq_true, if_true]
  cases getFullYear "2013-04-07T00:00:00+00:00" with
  | none => simp only [JSVal.toStr, JSNum.toStr]; decide
  | some y => simp only [JSVal.toStr, JSNum.toStr]; exact intToString_ne_na y

/-- C7, amended: `createAnimeCard` renders the placeholder 'N/A' as the score
whenever the record's score is absent, and renders the placeholder 'N/A' as the
year whenever the record's year is absent and the record has no `aired.from` date
(no `aired`, or an `aired.from` that is absent or empty); with the year absent and
an `aired.from` date present, the year rendered is the full year of that date. -/
theorem createAnimeCard_placeholders (self : Explorer)
    (getFullYear : String → Option Int) (anime : AnimeRecord) :
    Renders (createAnimeCard self getFullYear anime)
      ("<span class=\"rating\">⭐ " ++ (cardScore anime).toStr ++ "</span>") ∧
    Renders (createAnimeCard self getFullYear anime)
      ("<span class=\"year\">" ++ (cardYear getFullYear anime).toStr ++ "</span>") ∧
    (anime.score = none → (cardScore anime).toStr = "N/A") ∧
    (anime.year = none →
      (anime.aired = none ∨ anime.aired = some { from_ := none } ∨
        anime.aired = some { from_ := some "" }) →
      (cardYear getFullYear anime).toStr = "N/A") ∧
    (anime.year = none → ∀ date, anime.aired = some { from_ := some date } → date ≠ "" →
      cardYear getFullYear anime =
        match getFullYear date with
        | some y => JSVal.num (JSNum.int y)
        | none => JSVal.num JSNum.nan) := by
  refine ⟨?_, ?_, ?_, ?_, ?_⟩
  · dsimp only [createAnimeCard]
    repeat (first | exact renders_three _ _ _ _ | apply renders_append_right)
  · dsimp only [createAnimeCard]
    repeat (first | exact renders_three _ _ _ _ | apply renders_append_right)
  · intro h
    simp [cardScore, h, JSVal.toStr]
  · rintro hy (h | h | h) <;> simp [cardYear, hy, h, JSVal.toStr]
  · intro hy date h hne
    simp [cardYear, hy, h, hne]

/-- Witness of C7 (amended): a record with no score, no year and no `aired`
renders 'N/A' twice; the record of "Attack on Titan" renders the year of its
`aired.from` date. -/
theorem createAnimeCard_placeholders_witness :
    (cardScore bareRecord).toStr = "N/A" ∧
    (cardYear (fun _ => some 2013) bareRecord).toStr = "N/A" ∧
    cardYear (fun _ => some 2013) attackOnTitan = JSVal.num (JSNum.int 2013) :=
  ⟨(createAnimeCard_placeholders freshExplorer (fun _ => some 2013) bareRecord).2.2.1 rfl,
   (createAnimeCard_placeholders freshExplorer (fun _ => some 2013) bareRecord).2.2.2.1 rfl
      (Or.inl rfl),
   (createAnimeCard_placeholders freshExplorer (fun _ => some 2013) attackOnTitan).2.2.2.2
      rfl "2013-04-07T00:00:00+00:00" rfl (by decide)⟩

/-! ## `displayResults`: claim C10 -/

theorem getElementById_setContainer (doc : Document) (id : String) (c : Container)
    (h : (doc.getElementById id).isSome = true) :
    (doc.setContainer id c).getElementById id = some c := by
  unfold Document.getElementById Document.setContainer at *
  split_ifs at h ⊢ <;> simp_all

theorem createAnimeCard_data (self : Explorer) (getFullYear : String → Option Int)
    (anime : AnimeRecord) :
    ∃ rest, (createAnimeCard self getFullYear anime).data =
      "\n            <div class=\"anime-card\" data-id=\"".data ++ rest := by
  dsimp only [createAnimeCard]
  simp only [String.append_assoc, String.data_append]
  exact ⟨_, rfl⟩

/-- The markup of one or more cards is not the placeholder markup: the two differ
in their fourteenth character. -/
theorem join_cards_ne_noResults (self : Explorer) (getFullYear : String → Option Int)
    (anime : AnimeRecord) (list : List AnimeRecord) :
    join ((anime :: list).map (fun a => createAnimeCard self getFullYear a)) ≠
      noResultsMarkup := by
  intro h
  obtain ⟨rest, hrest⟩ := createAnimeCard_data self getFullYear anime
  have hdata := congrArg (fun s : String => s.data.take 14) h
  simp only [List.map_cons, join, String.data_append, hrest, List.append_assoc] at hdata
  rw [List.take_append_of_le_length (by decide)] at hdata
  revert hdata
  decide

/-- C10: for a result list that is empty or absent, `displayResults` sets the
content of the target container to the placeholder markup, which holds the text
'No results found' and is not the empty string; for a non-empty list it sets the
content to the concatenation of `createAnimeCard` of each record in list order,
which is not the placeholder markup. -/
theorem displayResults_content (b : Browser) (getFullYear : String → Option Int)
    (animeList : Option (List AnimeRecord)) (containerId : String)
    (hcontainer : (b.document.getElementById containerId).isSome = true) :
    ∃ b', displayResults b getFullYear animeList containerId = some b' ∧
      ((animeList = none ∨ animeList = some []) →
        (b'.document.getElementById containerId).map Container.markup =
          some noResultsMarkup) ∧
      (∀ list, animeList = some list → list ≠ [] →
        (b'.document.getElementById containerId).map Container.markup =
          some (join (list.map (fun anime => createAnimeCard b.self getFullYear anime))) ∧
        join (list.map (fun anime => createAnimeCard b.self getFullYear anime)) ≠
          noResultsMarkup) ∧
      noResultsMarkup ≠ "" ∧
      Renders noResultsMarkup "No results found" := by
  cases hget : b.document.getElementById containerId with
  | none => rw [hget] at hcontainer; cases hcontainer
  | some c0 =>
    refine ⟨{ b with document := (b.document.setContainer containerId
        (resultsContainer b.self getFullYear animeList)) },
      by simp only [displayResults, hget], ?_, ?_, by decide, ?_⟩
    · intro hempty
      simp only [getElementById_setContainer _ _ _ hcontainer, Option.map_some',
        resultsContainer, displayResultsMarkup]
      rcases hempty with h | h <;> simp [h]
    · intro list hlist hne
      cases list with
      | nil => exact absurd rfl hne
      | cons anime rest =>
        refine ⟨?_, join_cards_ne_noResults b.self getFullYear anime rest⟩
        simp [getElementById_setContainer _ _ _ hcontainer, resultsContainer,
          displayResultsMarkup, hlist]
    · exact ⟨"\n                <div class=\"empty-state\">\n                    <h3>",
        "</h3>\n                    <p>Try a different search term or check your filters.</p>\n                </div>\n            ",
        rfl⟩

/-- Witness of C10: a one-record list written to the container `searchResults`. -/
theorem displayResults_content_witness :
    (freshBrowser.document.getElementById "searchResults").isSome = true ∧
    ∃ b', displayResults freshBrowser (fun _ => some 2013) (some [attackOnTitan])
        "searchResults" = some b' ∧
      ((some [attackOnTitan] = none ∨ some [attackOnTitan] = some []) →
        (b'.document.getElementById "searchResults").map Container.markup =
          some noResultsMarkup) ∧
      (∀ list, some [attackOnTitan] = some list → list ≠ [] →
        (b'.document.getElementById "searchResults").map Container.markup =
          some (join (list.map
            (fun anime => createAnimeCard freshBrowser.self (fun _ => some 2013) anime))) ∧
        join (list.map
            (fun anime => createAnimeCard freshBrowser.self (fun _ => some 2013) anime)) ≠
          noResultsMarkup) ∧
      noResultsMarkup ≠ "" ∧
      Renders noResultsMarkup "No results found" :=
  ⟨by decide,
   displayResults_content freshBrowser (fun _ => some 2013) (some [attackOnTitan])
     "searchResults" (by decide)⟩

/-! ## The favorites tab: claim C9 -/

set_option maxRecDepth 100000 in
/-- C9 fails on the code: after startup on an empty storage, `toggleFavorite(1,
'Naruto', 'n.jpg')` on the search tab and then `switchTab('favorites')`, the
current tab is 'favorites' and the favorites list holds the new entry, but the
container `favoritesResults` still holds the 'No favorites yet' placeholder that
`init` wrote, which is not the rendering of the list: `switchTab` does not call
`displayFavorites`. -/
theorem switchTab_leaves_favorites_stale :
    (runFromStartup
        [Action.toggleFavorite 1 "Naruto" "n.jpg", Action.switchTab "favorites"]).map
      favoritesView =
      some ("favorites", [⟨1, "Naruto", "n.jpg"⟩],
        { markup := noFavoritesMarkup, buttons := [] }) ∧
    favoritesContainer [⟨1, "Naruto", "n.jpg"⟩] ≠
      { markup := noFavoritesMarkup, buttons := [] } := by
  refine ⟨by decide, fun h => ?_⟩
  have hb := congrArg Container.buttons h
  simp [favoritesContainer] at hb

/-! ## Round trip through `JSON.stringify` and `JSON.parse`: claim C8 -/

theorem toNat_ofNat_small (n : Nat) (h : n < 55296) : (Char.ofNat n).toNat = n := by
  have hv : n.isValidChar := Or.inl h
  simp only [Char.ofNat, hv, dif_pos, Char.toNat, Char.ofNatAux]
  rfl

theorem char_eq_ofNat (c : Char) (n : Nat) (h : c.toNat = n) : c = Char.ofNat n := by
  subst h
  exact (Char.ofNat_toNat c).symm

theorem hex4_small : ∀ n, n < 32 →
    hex4 (Char.ofNat 48) (Char.ofNat 48) (hexDigit (n / 16)) (hexDigit (n % 16)) = some n := by
  decide

/-- The parser reads the text of one quoted character back as that character. -/
theorem parseStringBody_quoteChar (c : Char) (rest : List Char) (fuel : Nat) :
    parseStringBody (fuel + 1) (quoteChar c ++ rest) =
      match parseStringBody fuel rest with
      | some (s, r) => some (c :: s, r)
      | none => none := by
  unfold quoteChar
  split_ifs with h34 h92 h8 h12 h10 h13 h9 h32
  · have hc := char_eq_ofNat c 34 h34
    simp [parseStringBody, simpleEscape, toNat_ofNat_small, hc]
  · have hc := char_eq_ofNat c 92 h92
    simp [parseStringBody, simpleEscape, toNat_ofNat_small, hc]
  · have hc := char_eq_ofNat c 8 h8
    simp [parseStringBody, simpleEscape, toNat_ofNat_small, hc]
  · have hc := char_eq_ofNat c 12 h12
    simp [parseStringBody, simpleEscape, toNat_ofNat_small, hc]
  · have hc := char_eq_ofNat c 10 h10
    simp [parseStringBody, simpleEscape, toNat_ofNat_small, hc]
  · have hc := char_eq_ofNat c 13 h13
    simp [parseStringBody, simpleEscape, toNat_ofNat_small, hc]
  · have hc := char_eq_ofNat c 9 h9
    simp [parseStringBody, simpleEscape, toNat_ofNat_small, hc]
  · have hhex := hex4_small c.toNat h32
    have hlo : ¬ (55296 ≤ c.toNat ∧ c.toNat < 56320) := by omega
    have hhi : ¬ (56320 ≤ c.toNat ∧ c.toNat < 57344) := by omega
    simp [parseStringBody, toNat_ofNat_small, hhex, hlo, hhi, Char.ofNat_toNat]
  · simp [parseStringBody, h34, h92, h32]

/-- The parser reads the quoted characters of a string, up to the closing quote,
back as the string; any fuel above the length of the quoted text is enough. -/
theorem parseStringBody_quote (s : List Char) (rest : List Char) :
    ∀ fuel, (s.flatMap quoteChar).length < fuel →
      parseStringBody fuel (s.flatMap quoteChar ++ Char.ofNat 34 :: rest) = some (s, rest) := by
  induction s with
  | nil =>
    intro fuel hfuel
    cases fuel with
    | zero => simp at hfuel
    | succ fuel => simp [parseStringBody, toNat_ofNat_small]
  | cons c s ih =>
    intro fuel hfuel
    cases fuel with
    | zero => simp at hfuel
    | succ fuel =>
      have hpos : 0 < (quoteChar c).length := by
        unfold quoteChar
        split_ifs <;> simp
      have hfuel' : (s.flatMap quoteChar).length < fuel := by
        simp only [List.flatMap_cons, List.length_append] at hfuel
        omega
      rw [List.flatMap_cons, List.append_assoc, parseStringBody_quoteChar, ih fuel hfuel']

/-- A quoted string at the head of a text parses to the string. -/
theorem parseStringBody_quoteJSONString (s : String) (rest : List Char) :
    parseStringBody ((s.data.flatMap quoteChar ++ Char.ofNat 34 :: rest).length + 1)
      (s.data.flatMap quoteChar ++ Char.ofNat 34 :: rest) = some (s.data, rest) := by
  apply parseStringBody_quote
  simp only [List.length_append, List.length_cons]
  omega

theorem natDigits_value (fuel : Nat) :
    ∀ n, n < fuel → digitsValue (natDigits fuel n) = n := by
  induction fuel with
  | zero => intro n h; omega
  | succ fuel ih =>
    intro n h
    simp only [natDigits]
    split
    · rename_i hlt
      simp [digitsValue, digitChar_toNat n hlt]
    · rename_i hge
      have hdiv : n / 10 < fuel := by omega
      have := ih (n / 10) hdiv
      unfold digitsValue at this ⊢
      rw [List.foldl_append, this]
      simp only [List.foldl_cons, List.foldl_nil,
        digitChar_toNat (n % 10) (Nat.mod_lt _ (by decide))]
      omega

/-- The digits of a positive number start with a digit other than zero. -/
theorem natDigits_head (fuel : Nat) :
    ∀ n, 0 < n → n < fuel →
      ∃ d tail, natDigits fuel n = digitChar d :: tail ∧ 0 < d ∧ d < 10 := by
  induction fuel with
  | zero => intro n _ h; omega
  | succ fuel ih =>
    intro n hpos h
    simp only [natDigits]
    split
    · rename_i hlt
      exact ⟨n, [], rfl, hpos, hlt⟩
    · rename_i hge
      obtain ⟨d, tail, htail, hd0, hd10⟩ := ih (n / 10) (by omega) (by omega)
      exact ⟨d, tail ++ [digitChar (n % 10)], by rw [htail]; rfl, hd0, hd10⟩

theorem natDigits_zero (fuel : Nat) : natDigits (fuel + 1) 0 = [digitChar 0] := by
  simp [natDigits]

theorem takeWhile_append_stop {α : Type} (p : α → Bool) (l : List α) (d : α) (rest : List α)
    (hl : ∀ c ∈ l, p c = true) (hd : p d = false) :
    (l ++ d :: rest).takeWhile p = l ∧ (l ++ d :: rest).dropWhile p = d :: rest := by
  induction l with
  | nil => simp [List.takeWhile, List.dropWhile, hd]
  | cons a l ih =>
    have ha : p a = true := hl a (by simp)
    have := ih (fun c hc => hl c (by simp [hc]))
    simp [List.takeWhile, List.dropWhile, ha, this.1, this.2]

theorem isDigit_toNat (c : Char) (h : isDigit c = true) : 48 ≤ c.toNat ∧ c.toNat ≤ 57 := by
  simpa [isDigit] using h

/-- A run of digits without a leading zero, followed by a comma, parses to its
value. -/
theorem parseNumber_digits (d0 : Char) (tail rest : List Char)
    (hdig : ∀ c ∈ d0 :: tail, isDigit c = true)
    (hlead : tail ≠ [] → d0.toNat ≠ 48) :
    parseNumber (d0 :: tail ++ Char.ofNat 44 :: rest) =
      some ((digitsValue (d0 :: tail) : Int), Char.ofNat 44 :: rest) := by
  have hd0 := isDigit_toNat d0 (hdig d0 (by simp))
  have hcomma : isDigit (Char.ofNat 44) = false := by decide
  obtain ⟨htake, hdrop⟩ := takeWhile_append_stop isDigit (d0 :: tail) (Char.ofNat 44) rest
    hdig hcomma
  have hneg : ¬ d0.toNat = 45 := by omega
  unfold parseNumber
  simp only [List.cons_append, hneg, decide_False, Bool.false_eq_true, if_false]
  rw [← List.cons_append, htake, hdrop]
  cases tail with
  | nil => simp [toNat_ofNat_small]
  | cons d1 tail =>
    have := hlead (by simp)
    simp [toNat_ofNat_small, this]

/-- A minus sign and a run of digits without a leading zero, followed by a comma,
parse to the negated value. -/
theorem parseNumber_neg_digits (d0 : Char) (tail rest : List Char)
    (hdig : ∀ c ∈ d0 :: tail, isDigit c = true)
    (hlead : tail ≠ [] → d0.toNat ≠ 48) :
    parseNumber (Char.ofNat 45 :: (d0 :: tail ++ Char.ofNat 44 :: rest)) =
      some (-(digitsValue (d0 :: tail) : Int), Char.ofNat 44 :: rest) := by
  have hcomma : isDigit (Char.ofNat 44) = false := by decide
  obtain ⟨htake, hdrop⟩ := takeWhile_append_stop isDigit (d0 :: tail) (Char.ofNat 44) rest
    hdig hcomma
  unfold parseNumber
  simp only [toNat_ofNat_small, Nat.reduceLT, decide_True, if_true, List.drop_succ_cons,
    List.drop_zero]
  rw [htake, hdrop]
  cases tail with
  | nil => simp [toNat_ofNat_small]
  | cons d1 tail =>
    have := hlead (by simp)
    simp [toNat_ofNat_small, this]

theorem natDigits_cons (m : Nat) :
    ∃ d0 tail, natDigits (m + 1) m = d0 :: tail ∧ (tail ≠ [] → d0.toNat ≠ 48) := by
  rcases Nat.eq_zero_or_pos m with h | h
  · subst h
    exact ⟨digitChar 0, [], natDigits_zero 0, fun h => absurd rfl h⟩
  · obtain ⟨d, tail, htail, hd0, hd10⟩ := natDigits_head (m + 1) m h (by omega)
    refine ⟨digitChar d, tail, htail, fun _ => ?_⟩
    rw [digitChar_toNat d hd10]
    omega

/-- The text of an integer, followed by a comma, parses to the integer. -/
theorem parseNumber_intToChars (n : Int) (rest : List Char) :
    parseNumber (intToChars n ++ Char.ofNat 44 :: rest) = some (n, Char.ofNat 44 :: rest) := by
  obtain ⟨d0, tail, hds, hlead⟩ := natDigits_cons n.natAbs
  have hdig : ∀ c ∈ d0 :: tail, isDigit c = true := by
    intro c hc
    rw [← hds] at hc
    exact natDigits_isDigit _ _ c hc
  have hval : digitsValue (d0 :: tail) = n.natAbs := by
    rw [← hds]
    exact natDigits_value _ _ (by omega)
  unfold intToChars
  split
  · rename_i hneg
    rw [hds, List.cons_append, parseNumber_neg_digits d0 tail rest hdig hlead, hval]
    congr 2
    omega
  · rename_i hpos
    rw [hds, parseNumber_digits d0 tail rest hdig hlead, hval]
    congr 2
    omega

/-- The text of an integer starts with a minus sign or a digit. -/
theorem intToChars_cons (n : Int) :
    ∃ c tail, intToChars n = c :: tail ∧ (c.toNat = 45 ∨ (48 ≤ c.toNat ∧ c.toNat ≤ 57)) := by
  obtain ⟨d0, tail, hds, _⟩ := natDigits_cons n.natAbs
  have hd0 : isDigit d0 = true :=
    natDigits_isDigit _ _ d0 (by rw [hds]; simp)
  unfold intToChars
  split
  · exact ⟨Char.ofNat 45, _, rfl, Or.inl (by decide)⟩
  · exact ⟨d0, tail, hds, Or.inr (isDigit_toNat d0 hd0)⟩

theorem skipWs_cons_of_not_ws (c : Char) (r : List Char) (h : isWs c = false) :
    skipWs (c :: r) = c :: r := by
  simp [skipWs, h]

/-- A quoted string at the head of a text parses to a string value. -/
theorem parseValue_string (s : String) (rest : List Char) (fuel : Nat) :
    parseValue (fuel + 1) (quoteJSONString s ++ rest) = some (JSON.str s, rest) := by
  unfold quoteJSONString
  rw [List.cons_append, List.append_assoc, parseValue]
  simp only [toNat_ofNat_small, Nat.reduceLT, if_true, List.singleton_append]
  rw [parseStringBody_quoteJSONString]

/-- The text of an integer, followed by a comma, parses to a number value. -/
theorem parseValue_number (n : Int) (rest : List Char) (fuel : Nat) :
    parseValue (fuel + 1) (intToChars n ++ Char.ofNat 44 :: rest) =
      some (JSON.num n, Char.ofNat 44 :: rest) := by
  have hnum := parseNumber_intToChars n rest
  obtain ⟨c, tail, hc, hcode⟩ := intToChars_cons n
  rw [hc] at hnum ⊢
  rw [List.cons_append] at hnum ⊢
  rw [parseValue]
  have h34 : ¬ c.toNat = 34 := by omega
  have h91 : ¬ c.toNat = 91 := by omega
  have h123 : ¬ c.toNat = 123 := by omega
  have h110 : ¬ c.toNat = 110 := by omega
  have h116 : ¬ c.toNat = 116 := by omega
  have h102 : ¬ c.toNat = 102 := by omega
  simp only [h34, h91, h123, h110, h116, h102, if_false, hnum]

/-- An object at the head of a text: an opening brace and properties that parse to
`ms`. -/
theorem parseValue_object (d : Char) (r1 : List Char) (ms : List (String × JSON))
    (rest : List Char) (fuel : Nat) (hws : isWs d = false) (hd : d.toNat ≠ 125)
    (hm : parseMembers fuel (d :: r1) = some (ms, rest)) :
    parseValue (fuel + 1) (Char.ofNat 123 :: d :: r1) = some (JSON.obj ms, rest) := by
  rw [parseValue]
  have hq : ¬ (Char.ofNat 123).toNat = 34 := by decide
  have hb : ¬ (Char.ofNat 123).toNat = 91 := by decide
  have hc : (Char.ofNat 123).toNat = 123 := by decide
  simp only [hq, hb, hc, if_false, if_true, skipWs_cons_of_not_ws _ _ hws, hd, hm]
  simp

/-- One property at the head of a text: the quoted name, a colon, and a value that
parses to `v` and is followed by the character `d`, which is not white space. -/
theorem parseMembers_step (key : String) (value r4 : List Char) (v : JSON) (d : Char)
    (fuel : Nat) (hws : skipWs value = value)
    (hvalue : parseValue fuel value = some (v, d :: r4)) (hd : isWs d = false) :
    parseMembers (fuel + 1) (quoteJSONString key ++ Char.ofNat 58 :: value) =
      if d.toNat = 44 then
        match parseMembers fuel (skipWs r4) with
        | some (ms, rest) => some (addMember key v ms, rest)
        | none => none
      else if d.toNat = 125 then some ([(key, v)], r4)
      else none := by
  unfold quoteJSONString
  rw [List.cons_append, List.append_assoc, parseMembers]
  simp only [toNat_ofNat_small, Nat.reduceLT, if_true, List.singleton_append]
  rw [parseStringBody_quoteJSONString]
  have hcolon : isWs (Char.ofNat 58) = false := by decide
  simp only [skipWs_cons_of_not_ws _ _ hcolon, toNat_ofNat_small, Nat.reduceLT, if_true,
    hws, hvalue, skipWs_cons_of_not_ws _ _ hd]

theorem skipWs_quoteJSONString (s : String) (rest : List Char) :
    skipWs (quoteJSONString s ++ rest) = quoteJSONString s ++ rest := by
  unfold quoteJSONString
  rw [List.cons_append]
  exact skipWs_cons_of_not_ws _ _ (by decide)

theorem skipWs_intToChars (n : Int) (rest : List Char) :
    skipWs (intToChars n ++ rest) = intToChars n ++ rest := by
  obtain ⟨c, tail, hc, hcode⟩ := intToChars_cons n
  rw [hc, List.cons_append]
  apply skipWs_cons_of_not_ws
  simp only [isWs, Bool.or_eq_false_iff, decide_eq_false_iff_not]
  omega

/-- The text of one entry at the head of a text parses to the object of the entry;
fuel 5 is enough. -/
theorem parseValue_entry (e : FavoriteEntry) (rest : List Char) (fuel : Nat) :
    parseValue (fuel + 5) (stringifyEntry e ++ rest) = some (entryJSON e, rest) := by
  have hbrace : isWs (Char.ofNat 125) = false := by decide
  have hcomma : isWs (Char.ofNat 44) = false := by decide
  -- the third property, up to the closing brace
  have h3 : parseMembers (fuel + 2)
      (quoteJSONString "imageUrl" ++ Char.ofNat 58 ::
        (quoteJSONString e.imageUrl ++ Char.ofNat 125 :: rest)) =
      some ([("imageUrl", JSON.str e.imageUrl)], rest) := by
    rw [parseMembers_step "imageUrl" _ rest (JSON.str e.imageUrl) (Char.ofNat 125) (fuel + 1)
      (skipWs_quoteJSONString _ _) (parseValue_string _ _ _) hbrace]
    simp [toNat_ofNat_small]
  -- the second property, followed by the third
  have h2 : parseMembers (fuel + 3)
      (quoteJSONString "title" ++ Char.ofNat 58 :: (quoteJSONString e.title ++
        Char.ofNat 44 :: (quoteJSONString "imageUrl" ++ Char.ofNat 58 ::
          (quoteJSONString e.imageUrl ++ Char.ofNat 125 :: rest)))) =
      some ([("title", JSON.str e.title), ("imageUrl", JSON.str e.imageUrl)], rest) := by
    rw [parseMembers_step "title" _ _ (JSON.str e.title) (Char.ofNat 44) (fuel + 2)
      (skipWs_quoteJSONString _ _) (parseValue_string _ _ _) hcomma]
    simp only [toNat_ofNat_small, Nat.reduceLT, if_true, skipWs_quoteJSONString, h3]
    simp [addMember, List.lookup]
  -- the first property, followed by the second
  have h1 : parseMembers (fuel + 4)
      (quoteJSONString "mal_id" ++ Char.ofNat 58 :: (intToChars e.mal_id ++
        Char.ofNat 44 :: (quoteJSONString "title" ++ Char.ofNat 58 :: (quoteJSONString e.title ++
        Char.ofNat 44 :: (quoteJSONString "imageUrl" ++ Char.ofNat 58 ::
          (quoteJSONString e.imageUrl ++ Char.ofNat 125 :: rest)))))) =
      some ([("mal_id", JSON.num e.mal_id), ("title", JSON.str e.title),
        ("imageUrl", JSON.str e.imageUrl)], rest) := by
    rw [parseMembers_step "mal_id" _ _ (JSON.num e.mal_id) (Char.ofNat 44) (fuel + 3)
      (skipWs_intToChars _ _) (parseValue_number _ _ _) hcomma]
    simp only [toNat_ofNat_small, Nat.reduceLT, if_true, skipWs_quoteJSONString, h2]
    simp [addMember, List.lookup]
  have htext : stringifyEntry e ++ rest =
      Char.ofNat 123 :: Char.ofNat 34 :: (("mal_id".data.flatMap quoteChar ++ [Char.ofNat 34]) ++
        Char.ofNat 58 :: (intToChars e.mal_id ++
        Char.ofNat 44 :: (quoteJSONString "title" ++ Char.ofNat 58 :: (quoteJSONString e.title ++
        Char.ofNat 44 :: (quoteJSONString "imageUrl" ++ Char.ofNat 58 ::
          (quoteJSONString e.imageUrl ++ Char.ofNat 125 :: rest)))))) := by
    simp [stringifyEntry, quoteJSONString]
  rw [htext]
  exact parseValue_object _ _ _ _ _ (by decide) (by decide) h1

theorem stringifyEntries_head (e : FavoriteEntry) (es : List FavoriteEntry)
    (r : List Char) :
    ∃ t, stringifyEntries (e :: es) ++ r = Char.ofNat 123 :: t := by
  cases es with
  | nil => exact ⟨_, rfl⟩
  | cons e' es => exact ⟨_, rfl⟩

/-- The texts of one or more entries, up to the closing bracket, parse to the
objects of the entries; the number of entries plus 5 is enough fuel. -/
theorem parseElements_entries (es : List FavoriteEntry) :
    ∀ (e : FavoriteEntry) (rest : List Char) (fuel : Nat),
      (e :: es).length + 5 ≤ fuel →
      parseElements fuel (stringifyEntries (e :: es) ++ Char.ofNat 93 :: rest) =
        some ((e :: es).map entryJSON, rest) := by
  induction es with
  | nil =>
    intro e rest fuel hfuel
    obtain ⟨g, rfl⟩ : ∃ g, fuel = g + 5 + 1 := ⟨fuel - 6, by simp at hfuel; omega⟩
    have hbracket : isWs (Char.ofNat 93) = false := by decide
    rw [parseElements]
    simp only [stringifyEntries, parseValue_entry, skipWs_cons_of_not_ws _ _ hbracket]
    simp [toNat_ofNat_small]
  | cons e' es ih =>
    intro e rest fuel hfuel
    obtain ⟨g, rfl⟩ : ∃ g, fuel = g + 5 + 1 := ⟨fuel - 6, by simp at hfuel; omega⟩
    have hcomma : isWs (Char.ofNat 44) = false := by decide
    have hih := ih e' rest (g + 5) (by simp at hfuel ⊢; omega)
    obtain ⟨t, ht⟩ := stringifyEntries_head e' es (Char.ofNat 93 :: rest)
    have hws : skipWs (stringifyEntries (e' :: es) ++ Char.ofNat 93 :: rest) =
        stringifyEntries (e' :: es) ++ Char.ofNat 93 :: rest := by
      rw [ht]
      exact skipWs_cons_of_not_ws _ _ (by decide)
    rw [parseElements]
    simp only [stringifyEntries, List.append_assoc, List.cons_append, parseValue_entry,
      skipWs_cons_of_not_ws _ _ hcomma]
    simp only [toNat_ofNat_small, Nat.reduceLT, if_true, hws, hih]
    simp

theorem stringifyEntry_length (e : FavoriteEntry) : 4 ≤ (stringifyEntry e).length := by
  simp only [stringifyEntry, quoteJSONString, List.length_cons, List.length_append]
  omega

theorem stringifyEntries_length (favorites : List FavoriteEntry) :
    4 * favorites.length ≤ (stringifyEntries favorites).length := by
  induction favorites with
  | nil => simp [stringifyEntries]
  | cons e es ih =>
    have he := stringifyEntry_length e
    cases es with
    | nil => simpa [stringifyEntries] using he
    | cons e' es =>
      simp only [stringifyEntries, List.length_append, List.length_cons] at ih ⊢
      omega

/-- An array at the head of a text: an opening bracket and elements that parse to
`vs`. -/
theorem parseValue_array (d : Char) (r1 : List Char) (vs : List JSON)
    (rest : List Char) (fuel : Nat) (hws : isWs d = false) (hd : d.toNat ≠ 93)
    (hm : parseElements fuel (d :: r1) = some (vs, rest)) :
    parseValue (fuel + 1) (Char.ofNat 91 :: d :: r1) = some (JSON.arr vs, rest) := by
  rw [parseValue]
  have hq : ¬ (Char.ofNat 91).toNat = 34 := by decide
  have hc : (Char.ofNat 91).toNat = 91 := by decide
  simp only [hq, hc, if_false, if_true, skipWs_cons_of_not_ws _ _ hws, hd, hm]
  simp

/-- `JSON.parse` reads the text that `JSON.stringify` writes for a favorites list
back as the array of the objects of the entries. -/
theorem parse_stringify (favorites : List FavoriteEntry) :
    JSON.parse (stringify favorites) = some (JSON.arr (favorites.map entryJSON)) := by
  cases favorites with
  | nil => rfl
  | cons e es =>
    obtain ⟨t, ht⟩ := stringifyEntries_head e es [Char.ofNat 93]
    have hlen := stringifyEntries_length (e :: es)
    have hparse := parseElements_entries es e [] ((stringifyEntries (e :: es)).length + 2)
      (by simp only [List.length_cons] at hlen ⊢; omega)
    rw [ht] at hparse
    have hvalue := parseValue_array (Char.ofNat 123) t _ [] _ (by decide) (by decide) hparse
    have hbracket : isWs (Char.ofNat 91) = false := by decide
    have hfuel : (stringify (e :: es)).length + 1 =
        (stringifyEntries (e :: es)).length + 2 + 1 := by
      simp [stringify, String.length]
    unfold JSON.parse
    rw [hfuel]
    simp only [stringify, ht, skipWs_cons_of_not_ws _ _ hbracket, hvalue]
    simp [skipWs]

theorem decodeEntries_entryJSON (favorites : List FavoriteEntry) :
    decodeEntries (favorites.map entryJSON) = some favorites := by
  induction favorites with
  | nil => rfl
  | cons e es ih =>
    simp only [List.map_cons, decodeEntries, ih]
    simp [entryJSON, decodeEntry]

/-- The list that the constructor reads from a storage in which `toggleFavorite`
has saved a favorites list is that list. -/
theorem loadFavorites_saveFavorites (st : Storage) (favorites : List FavoriteEntry) :
    loadFavorites (saveFavorites st favorites) = some favorites := by
  simp only [loadFavorites, saveFavorites, Storage.getItem, Storage.setItem, if_true,
    parse_stringify, JSON.truthy, decodeEntries_entryJSON]

theorem updateFavoriteButtons_keeps (b b' : Browser)
    (h : updateFavoriteButtons b = some b') :
    b'.self = b.self ∧ b'.localStorage = b.localStorage := by
  unfold updateFavoriteButtons at h
  split at h
  · cases h; exact ⟨rfl, rfl⟩
  · cases h

/-- After `toggleFavorite`, the storage holds the text of the new favorites list. -/
theorem toggleFavorite_storage (b b' : Browser) (malId : Int) (title imageUrl : String)
    (h : toggleFavorite b malId title imageUrl = some b') :
    b'.self.favorites = toggleFavoriteList b.self.favorites malId title imageUrl ∧
    b'.localStorage = saveFavorites b.localStorage b'.self.favorites := by
  unfold toggleFavorite at h
  simp only at h
  split at h
  · cases h
  · rename_i b2 hb2
    obtain ⟨hself, hst⟩ := updateFavoriteButtons_keeps _ _ hb2
    split at h
    · cases h
      refine ⟨?_, ?_⟩
      · show b2.self.favorites = _
        rw [hself]
      · show b2.localStorage = saveFavorites b.localStorage b2.self.favorites
        rw [hself, hst]
    · cases h
      refine ⟨?_, ?_⟩
      · rw [hself]
      · rw [hself, hst]

/-- C8: writing a favorites list to storage the way `toggleFavorite` does
(`JSON.stringify` under the key 'animeFavorites') and reading it back the way the
constructor does (`JSON.parse` of that key, or the empty list) gives the original
list: same length, same entries, same order, same field values.  So the
constructor, run on the storage that a `toggleFavorite` call leaves, starts with
the favorites list that the call left. -/
theorem favorites_roundtrip (st : Storage) (favorites : List FavoriteEntry)
    (b : Browser) (malId : Int) (title imageUrl : String) (document : Document) :
    loadFavorites (saveFavorites st favorites) = some favorites ∧
    (∀ b', toggleFavorite b malId title imageUrl = some b' →
      (construct b'.localStorage document).map (fun restarted => restarted.self.favorites) =
        some b'.self.favorites) := by
  refine ⟨loadFavorites_saveFavorites st favorites, fun b' h => ?_⟩
  obtain ⟨_, hst⟩ := toggleFavorite_storage b b' malId title imageUrl h
  rw [hst]
  simp only [construct, loadFavorites_saveFavorites, Option.map_some', init, displayFavorites]

/-- Witness of C8: a restart after `toggleFavorite(1, 'Naruto', 'n.jpg')` on the
fresh state. -/
theorem favorites_roundtrip_witness :
    toggleFavorite freshBrowser 1 "Naruto" "n.jpg" =
      some { self := { freshExplorer with favorites := [⟨1, "Naruto", "n.jpg"⟩] }
             localStorage := saveFavorites emptyStorage [⟨1, "Naruto", "n.jpg"⟩]
             document := blankDocument } ∧
    (construct (saveFavorites emptyStorage [⟨1, "Naruto", "n.jpg"⟩]) blankDocument).map
        (fun restarted => restarted.self.favorites) =
      some [⟨1, "Naruto", "n.jpg"⟩] :=
  ⟨rfl,
   (favorites_roundtrip emptyStorage [] freshBrowser 1 "Naruto" "n.jpg" blankDocument).2
     { self := { freshExplorer with favorites := [⟨1, "Naruto", "n.jpg"⟩] }
       localStorage := saveFavorites emptyStorage [⟨1, "Naruto", "n.jpg"⟩]
       document := blankDocument } rfl⟩

end AnimeExplorer
